import Mathlib

/-!
# Wait-Host: target resolution, validation and the probe loop

A shallow embedding of `waithost.go` (package `waithost`) together with the
parts of the Go standard library the package calls (`strings`, `strconv.Atoi`,
`net/url.Parse`, `fmt.Sprintf` with `%s` and `%d`).

Conventions.
* A Go `string` is a sequence of bytes; it is modelled as `List Char`, one
  `Char` per byte.  All comparisons the library makes are on ASCII bytes.
* `uint` and `int` are 64 bits wide.
* `time.Duration` and clock readings are integers counting nanoseconds.
* `error` values are modelled by `GoError`; `nil` is `none`.
* The network and the clock are an explicit environment (`World`); a run
  threads a state (`Run`) that records the clock, the calls made and the
  observable events. The loop of `check` takes a bound on its iterations.
-/

/-- A Go string: the list of its bytes. -/
abbrev GoString := List Char

/-! ## Package `strings` -/

namespace strings

/-- Position of the first occurrence of `sub` in the string, if any. -/
def findSub (sub : GoString) : GoString → Option Nat
  | [] => if sub.isEmpty then some 0 else none
  | c :: cs =>
    if sub.isPrefixOf (c :: cs) then some 0 else (findSub sub cs).map (· + 1)

/-- Position of the last occurrence of `sub` in the string, if any. -/
def findLastSub (sub : GoString) : GoString → Option Nat
  | [] => if sub.isEmpty then some 0 else none
  | c :: cs =>
    match findLastSub sub cs with
    | some i => some (i + 1)
    | none => if sub.isPrefixOf (c :: cs) then some 0 else none

/-- Go `strings.Index`: index of the first occurrence, `-1` when absent. -/
def Index (s sub : GoString) : Int :=
  match findSub sub s with
  | some i => (i : Int)
  | none => -1

/-- Go `strings.LastIndex`: index of the last occurrence, `-1` when absent. -/
def LastIndex (s sub : GoString) : Int :=
  match findLastSub sub s with
  | some i => (i : Int)
  | none => -1

/-- Go `strings.Contains`. -/
def Contains (s sub : GoString) : Bool := (findSub sub s).isSome

/-- Go `strings.HasPrefix`. -/
def startsWith (s pre : GoString) : Bool := pre.isPrefixOf s

/-- Go `strings.HasSuffix`. -/
def endsWith (s suf : GoString) : Bool := suf.reverse.isPrefixOf s.reverse

/-- Go `strings.Cut`: the text before and after the first occurrence of `sep`,
and whether `sep` occurs at all. -/
def Cut (s sep : GoString) : GoString × GoString × Bool :=
  match findSub sep s with
  | some i => (s.take i, s.drop (i + sep.length), true)
  | none => (s, [], false)

/-- Go `strings.Count` for a one-byte separator. -/
def Count (s : GoString) (c : Char) : Nat := s.count c

/-- Go `strings.ToLower` on ASCII text. -/
def ToLower (s : GoString) : GoString := s.map Char.toLower

/-- Go `strings.ReplaceAll` for a non-empty `old`: every non-overlapping
occurrence of `old`, scanning from the left, is replaced by `new`. -/
def replaceAllAux (old new : GoString) : Nat → GoString → GoString
  | _, [] => []
  | 0, c :: cs =>
    if old.isPrefixOf (c :: cs) then new ++ replaceAllAux old new (old.length - 1) cs
    else c :: replaceAllAux old new 0 cs
  | skip + 1, _ :: cs => replaceAllAux old new skip cs

/-- Go `strings.ReplaceAll` (for a non-empty `old`). -/
def ReplaceAll (s old new : GoString) : GoString := replaceAllAux old new 0 s

end strings

/-! ## Bytes -/

/-- ASCII letter, as in `'a' <= c && c <= 'z' || 'A' <= c && c <= 'Z'`. -/
def isLetter (c : Char) : Bool :=
  decide (97 ≤ c.toNat ∧ c.toNat ≤ 122) || decide (65 ≤ c.toNat ∧ c.toNat ≤ 90)

/-- ASCII digit, as in `'0' <= c && c <= '9'`. -/
def isDigit (c : Char) : Bool := decide (48 ≤ c.toNat ∧ c.toNat ≤ 57)

/-- Value of a decimal digit byte (`c - '0'`). -/
def digitVal (c : Char) : Nat := c.toNat - 48

/-! ## `strconv.Atoi` and `fmt.Sprintf("%d")` -/

namespace strconv

/-- Value of a digit string read in base 10, most significant digit first. -/
def digitsValue (s : GoString) : Nat := s.foldl (fun n c => n * 10 + digitVal c) 0

/-- Go `strconv.Atoi` on a 64-bit platform: an optional sign followed by one or
more decimal digits, whose value must fit `int`; `none` stands for the
`*NumError` (syntax or range) the function returns otherwise. -/
def Atoi (s : GoString) : Option Int :=
  match s with
  | [] => none
  | c :: cs =>
    let body := if c = '-' ∨ c = '+' then cs else c :: cs
    if body.isEmpty || !body.all isDigit then none
    else
      let v : Int := digitsValue body
      if c = '-' then (if v ≤ 2 ^ 63 then some (-v) else none)
      else (if v < 2 ^ 63 then some v else none)

end strconv

/-- Decimal digits of `n`, least significant first; `fuel` bounds the number of digits. -/
def decimalRev : Nat → Nat → GoString
  | 0, _ => []
  | fuel + 1, n =>
    if n < 10 then [Char.ofNat (48 + n)]
    else Char.ofNat (48 + n % 10) :: decimalRev fuel (n / 10)

/-- The text `fmt.Sprintf("%d", n)` produces for an unsigned `n`. -/
def formatUint (n : Nat) : GoString := (decimalRev (n + 1) n).reverse

/-! ## Package `net/url`: `Parse`, `Hostname`, `Port` -/

namespace url

/-- The errors `url.Parse` reports (the cause wrapped in its `*url.Error`). -/
inductive ParseError
  | invalidControlCharacter
  | missingProtocolScheme
  | firstPathSegmentColon
  | missingBracket
  | invalidPort (colonPort : GoString)
  | invalidUserinfo
  | escapeError (s : GoString)
  | invalidHostError (s : GoString)
  deriving DecidableEq, Repr

/-- The `encoding` modes of `unescape`. -/
inductive Encoding
  | encodePath
  | encodePathSegment
  | encodeHost
  | encodeZone
  | encodeUserPassword
  | encodeQueryComponent
  | encodeFragment
  deriving DecidableEq, Repr

/-- Go `url.Userinfo`. -/
structure Userinfo where
  username : GoString
  password : GoString
  passwordSet : Bool
  deriving DecidableEq, Repr

/-- Go `url.URL` (the fields `Parse` fills in; `Opaq` is the field `Opaque`). -/
structure URL where
  Scheme : GoString := []
  Opaq : GoString := []
  User : Option Userinfo := none
  Host : GoString := []
  Path : GoString := []
  ForceQuery : Bool := false
  RawQuery : GoString := []
  Fragment : GoString := []
  deriving DecidableEq, Repr

/-- Go `stringContainsCTLByte`: some byte is `< ' '` or is `0x7f`. -/
def stringContainsCTLByte (s : GoString) : Bool :=
  s.any (fun b => decide (b.toNat < 32) || decide (b.toNat = 127))

/-- Go `ishex`. -/
def ishex (c : Char) : Bool :=
  isDigit c || decide (97 ≤ c.toNat ∧ c.toNat ≤ 102) || decide (65 ≤ c.toNat ∧ c.toNat ≤ 70)

/-- Go `unhex`. -/
def unhex (c : Char) : Nat :=
  if isDigit c then c.toNat - 48
  else if 97 ≤ c.toNat ∧ c.toNat ≤ 102 then c.toNat - 97 + 10
  else if 65 ≤ c.toNat ∧ c.toNat ≤ 70 then c.toNat - 65 + 10
  else 0

/-- The punctuation `shouldEscape` lets through in a host:
`! $ & ' ( ) * + , ; = : [ ] < > "`. -/
def hostPunctuation : GoString :=
  ['!', '$', '&', Char.ofNat 39, '(', ')', '*', '+', ',', ';', '=', ':', '[', ']', '<', '>', '"']

/-- Go `shouldEscape(c, encodeHost)`. -/
def shouldEscapeHost (c : Char) : Bool :=
  if isLetter c || isDigit c then false
  else if hostPunctuation.contains c then false
  else if ['-', '_', '.', '~'].contains c then false
  else true

/-- First pass of Go `unescape`: the `%` escapes are well formed and, in a host
or zone, no byte needs escaping. -/
def unescapeCheck (mode : Encoding) : GoString → Except ParseError Unit
  | [] => .ok ()
  | c :: cs =>
    if c = '%' then
      match cs with
      | a :: b :: rest =>
        if !ishex a || !ishex b then .error (.escapeError [c, a, b])
        else if mode = .encodeHost ∧ unhex a < 8 ∧ [c, a, b] ≠ ['%', '2', '5'] then
          .error (.escapeError [c, a, b])
        else if mode = .encodeZone ∧ [c, a, b] ≠ ['%', '2', '5'] ∧ unhex a * 16 + unhex b ≠ 32
            ∧ shouldEscapeHost (Char.ofNat (unhex a * 16 + unhex b)) then
          .error (.escapeError [c, a, b])
        else unescapeCheck mode rest
      | _ => .error (.escapeError (c :: cs))
    else if c = '+' then unescapeCheck mode cs
    else if (mode = .encodeHost ∨ mode = .encodeZone) ∧ c.toNat < 128 ∧ shouldEscapeHost c then
      .error (.invalidHostError [c])
    else unescapeCheck mode cs

/-- Second pass of Go `unescape`: decode the `%XX` escapes (and `+` in a query component). -/
def unescapeDecode (mode : Encoding) : GoString → GoString
  | [] => []
  | c :: cs =>
    if c = '%' then
      match cs with
      | a :: b :: rest => Char.ofNat (unhex a * 16 + unhex b) :: unescapeDecode mode rest
      | _ => c :: cs
    else if c = '+' then
      (if mode = .encodeQueryComponent then ' ' else '+') :: unescapeDecode mode cs
    else c :: unescapeDecode mode cs

/-- Go `unescape`. -/
def unescape (s : GoString) (mode : Encoding) : Except ParseError GoString :=
  match unescapeCheck mode s with
  | .error e => .error e
  | .ok _ => .ok (unescapeDecode mode s)

/-- Go `getScheme`, the loop from byte `i` on. -/
def getSchemeFrom (rawURL : GoString) : GoString → Nat → Except ParseError (GoString × GoString)
  | [], _ => .ok ([], rawURL)
  | c :: cs, i =>
    if isLetter c then getSchemeFrom rawURL cs (i + 1)
    else if isDigit c || c = '+' || c = '-' || c = '.' then
      if i = 0 then .ok ([], rawURL) else getSchemeFrom rawURL cs (i + 1)
    else if c = ':' then
      if i = 0 then .error .missingProtocolScheme
      else .ok (rawURL.take i, rawURL.drop (i + 1))
    else .ok ([], rawURL)

/-- Go `getScheme`: the scheme and the text after its colon. -/
def getScheme (rawURL : GoString) : Except ParseError (GoString × GoString) :=
  getSchemeFrom rawURL rawURL 0

/-- Go `validOptionalPort`: empty, or a colon followed by digits only. -/
def validOptionalPort (port : GoString) : Bool :=
  match port with
  | [] => true
  | c :: rest => c = ':' && rest.all isDigit

/-- Go `validUserinfo`. -/
def validUserinfo (s : GoString) : Bool :=
  s.all fun r => isLetter r || isDigit r ||
    ['-', '.', '_', ':', '~', '!', '$', '&', Char.ofNat 39, '(', ')', '*', '+', ',', ';', '=',
      '%', '@'].contains r

/-- Go `parseHost`. -/
def parseHost (host : GoString) : Except ParseError GoString :=
  if strings.startsWith host ['['] then
    match strings.findLastSub [']'] host with
    | none => .error .missingBracket
    | some i =>
      let colonPort := host.drop (i + 1)
      if !validOptionalPort colonPort then .error (.invalidPort colonPort)
      else
        match strings.findSub ['%', '2', '5'] (host.take i) with
        | some zone =>
          match unescape (host.take zone) .encodeHost with
          | .error e => .error e
          | .ok host1 =>
            match unescape ((host.take i).drop zone) .encodeZone with
            | .error e => .error e
            | .ok host2 =>
              match unescape (host.drop i) .encodeHost with
              | .error e => .error e
              | .ok host3 => .ok (host1 ++ host2 ++ host3)
        | none => unescape host .encodeHost
  else
    match strings.findLastSub [':'] host with
    | some i =>
      if !validOptionalPort (host.drop i) then .error (.invalidPort (host.drop i))
      else unescape host .encodeHost
    | none => unescape host .encodeHost

/-- Go `parseAuthority`. -/
def parseAuthority (authority : GoString) : Except ParseError (Option Userinfo × GoString) :=
  match strings.findLastSub ['@'] authority with
  | none =>
    match parseHost authority with
    | .error e => .error e
    | .ok host => .ok (none, host)
  | some i =>
    match parseHost (authority.drop (i + 1)) with
    | .error e => .error e
    | .ok host =>
      let userinfo := authority.take i
      if !validUserinfo userinfo then .error .invalidUserinfo
      else if !strings.Contains userinfo [':'] then
        match unescape userinfo .encodeUserPassword with
        | .error e => .error e
        | .ok u => .ok (some ⟨u, [], false⟩, host)
      else
        match unescape (strings.Cut userinfo [':']).1 .encodeUserPassword with
        | .error e => .error e
        | .ok username =>
          match unescape (strings.Cut userinfo [':']).2.1 .encodeUserPassword with
          | .error e => .error e
          | .ok password => .ok (some ⟨username, password, true⟩, host)

/-- Go `parse(rawURL, viaRequest = false)` after the scheme and the query have
been split off: authority and path. -/
def parseRest (scheme rest rawQuery : GoString) (forceQuery : Bool) : Except ParseError URL :=
  if !strings.startsWith rest ['/'] ∧ scheme ≠ [] then
    .ok { Scheme := scheme, Opaq := rest, ForceQuery := forceQuery, RawQuery := rawQuery }
  else if !strings.startsWith rest ['/'] ∧ strings.Contains (strings.Cut rest ['/']).1 [':'] then
    .error .firstPathSegmentColon
  else if (scheme ≠ [] ∨ !strings.startsWith rest ['/', '/', '/']) ∧
      strings.startsWith rest ['/', '/'] then
    let authority := rest.drop 2
    let cut : GoString × GoString :=
      match strings.findSub ['/'] authority with
      | some i => (authority.take i, authority.drop i)
      | none => (authority, [])
    match parseAuthority cut.1 with
    | .error e => .error e
    | .ok (user, host) =>
      match unescape cut.2 .encodePath with
      | .error e => .error e
      | .ok path =>
        .ok { Scheme := scheme, User := user, Host := host, Path := path,
              ForceQuery := forceQuery, RawQuery := rawQuery }
  else
    match unescape rest .encodePath with
    | .error e => .error e
    | .ok path =>
      .ok { Scheme := scheme, Path := path, ForceQuery := forceQuery, RawQuery := rawQuery }

/-- Go `parse(rawURL, viaRequest = false)`. -/
def parse (rawURL : GoString) : Except ParseError URL :=
  if stringContainsCTLByte rawURL then .error .invalidControlCharacter
  else if rawURL = ['*'] then .ok { Path := ['*'] }
  else
    match getScheme rawURL with
    | .error e => .error e
    | .ok (scheme, rest) =>
      if strings.endsWith rest ['?'] ∧ strings.Count rest '?' = 1 then
        parseRest (strings.ToLower scheme) rest.dropLast [] true
      else
        parseRest (strings.ToLower scheme) (strings.Cut rest ['?']).1 (strings.Cut rest ['?']).2.1
          false

/-- Go `url.Parse`: cut off the fragment, parse the rest, then set the fragment. -/
def Parse (rawURL : GoString) : Except ParseError URL :=
  match parse (strings.Cut rawURL ['#']).1 with
  | .error e => .error e
  | .ok u =>
    if (strings.Cut rawURL ['#']).2.1 = [] then .ok u
    else
      match unescape (strings.Cut rawURL ['#']).2.1 .encodeFragment with
      | .error e => .error e
      | .ok frag => .ok { u with Fragment := frag }

/-- Go `splitHostPort`: split `host:port`, and strip the brackets of `[host]`. -/
def splitHostPort (hostPort : GoString) : GoString × GoString :=
  let split : GoString × GoString :=
    match strings.findLastSub [':'] hostPort with
    | some colon =>
      if validOptionalPort (hostPort.drop colon) then
        (hostPort.take colon, hostPort.drop (colon + 1))
      else (hostPort, [])
    | none => (hostPort, [])
  if strings.startsWith split.1 ['['] ∧ strings.endsWith split.1 [']'] then
    ((split.1.drop 1).dropLast, split.2)
  else split

/-- Go `(*URL).Hostname`. -/
def URL.Hostname (u : URL) : GoString := (splitHostPort u.Host).1

/-- Go `(*URL).Port`. -/
def URL.Port (u : URL) : GoString := (splitHostPort u.Host).2

end url

/-! ## Package `waithost`: errors (`waithost_error.go`) -/

/-- Return codes (`ErrorCode`, an `iota` enumeration starting at `TIMEOUT = 0`). -/
inductive ErrorCode
  | TIMEOUT
  | BAD_URL
  | BAD_SCHEME
  | BAD_HOST
  | BAD_PORT
  deriving DecidableEq, Repr

/-- Numeric value of an `ErrorCode` (`uint8`). -/
def ErrorCode.toNat : ErrorCode → Nat
  | .TIMEOUT => 0
  | .BAD_URL => 1
  | .BAD_SCHEME => 2
  | .BAD_HOST => 3
  | .BAD_PORT => 4

/-- The struct `WaitHostError`. -/
structure WaitHostError where
  error : ErrorCode
  deriving DecidableEq, Repr

/-- `(*WaitHostError).Code`. -/
def WaitHostError.Code (e : WaitHostError) : ErrorCode := e.error

/-- `(*WaitHostError).Error`. -/
def WaitHostError.Error (e : WaitHostError) : String :=
  match e.error with
  | .TIMEOUT => "Timeout"
  | .BAD_URL => "Bad url"
  | .BAD_SCHEME => "Bad scheme"
  | .BAD_HOST => "Bad host"
  | .BAD_PORT => "Bad port"

/-- An error of package `net` (a `*net.OpError`), as `net.Dial` and
`conn.Close` return them. -/
structure NetError where
  msg : GoString
  deriving DecidableEq, Repr

/-- A non-nil Go `error` value, by dynamic type: a `*WaitHostError`, the
`*url.Error` of a failed `url.Parse`, or an error of package `net`. -/
inductive GoError
  | waitHost (e : WaitHostError)
  | urlError (e : url.ParseError)
  | netError (e : NetError)
  deriving DecidableEq, Repr

/-! ## Package `waithost`: data and defaults (`waithost.go`, `logger.go`) -/

/-- `time.Second`, in nanoseconds. -/
def Second : Int := 1000000000

/-- A value of the interface `logger`: the package's `defaultLogger` or one
installed through `SetLogger`. -/
inductive Logger
  | defaultLogger
  | custom (id : Nat)
  deriving DecidableEq, Repr

/-- The struct `WaitHost`; a nil `logger` is `none`. -/
structure WaitHost where
  Scheme : GoString
  Host : GoString
  Port : Nat
  Timeout : Int
  ConnectTimeout : Int
  logger : Option Logger
  waitMessage : GoString
  retryMessage : GoString
  successMessage : GoString
  timeoutMessage : GoString
  deriving DecidableEq, Repr

/-- Default host to use if none is present in the address. -/
def DefaultHost : GoString := "localhost".toList

/-- Default scheme to use if none is present in the address. -/
def DefaultScheme : GoString := "tcp".toList

/-- Default Timeout; 0 means never give up. -/
def DefaultTimeout : Int := 0

/-- Default retry message. -/
def DefaultRetryMessage : GoString := "Waiting for connection on {host}:{port}".toList

/-- List of accepted schemes (`acceptedScheme[s]`, `false` for a missing key). -/
def acceptedScheme (s : GoString) : Bool :=
  s = "tcp".toList || s = "http".toList || s = "https".toList

/-- Port mapping (`portMap[s]`, `0` for a missing key). -/
def portMap (s : GoString) : Nat :=
  if s = "http".toList then 80
  else if s = "https".toList then 443
  else 0

/-- Conversion `uint(port)` of an `int`. -/
def toUint (port : Int) : Nat := (port % 2 ^ 64).toNat

/-- `SetLogger`. -/
def WaitHost.SetLogger (wh : WaitHost) (log : Option Logger) : WaitHost :=
  { wh with logger := log }

/-- `SetWaitMessage`. -/
def WaitHost.SetWaitMessage (wh : WaitHost) (message : GoString) : WaitHost :=
  { wh with waitMessage := message }

/-- `SetRetryMessage`. -/
def WaitHost.SetRetryMessage (wh : WaitHost) (message : GoString) : WaitHost :=
  { wh with retryMessage := message }

/-- `SetSuccessMessage`. -/
def WaitHost.SetSuccessMessage (wh : WaitHost) (message : GoString) : WaitHost :=
  { wh with successMessage := message }

/-- `SetTimeoutMessage`. -/
def WaitHost.SetTimeoutMessage (wh : WaitHost) (message : GoString) : WaitHost :=
  { wh with timeoutMessage := message }

/-! ## Target resolution and validation -/

/-- The first two steps of `extractTarget`: prepend the default host to a
target that begins with `:`, and the default scheme to one without `://`. -/
def withDefaults (target : GoString) : GoString :=
  let target :=
    if strings.Index target ":".toList = 0 ∧ strings.Index target "://".toList = -1 then
      DefaultHost ++ target
    else target
  if strings.Index target "://".toList = -1 then DefaultScheme ++ "://".toList ++ target
  else target

/-- `extractTarget`: `.error err` is the return `(nil, err)`, `.ok wh` is `(wh, nil)`. -/
def extractTarget (target : GoString) : Except GoError WaitHost :=
  match url.Parse (withDefaults target) with
  | .error err => .error (.urlError err)
  | .ok u =>
    let wh : WaitHost :=
      { Scheme := u.Scheme
        Host := u.Hostname
        Port := 0
        Timeout := DefaultTimeout
        ConnectTimeout := 1 * Second
        logger := some .defaultLogger
        waitMessage := []
        retryMessage := DefaultRetryMessage
        successMessage := []
        timeoutMessage := [] }
    match strconv.Atoi u.Port with
    | none => .ok { wh with Port := portMap u.Scheme }
    | some port => .ok { wh with Port := toUint port }

/-- `New`. -/
def New (target : GoString) : Except GoError WaitHost := extractTarget target

/-- The address `validateTarget` rebuilds: `fmt.Sprintf("%s://%s:%d", Scheme, Host, Port)`. -/
def targetString (wh : WaitHost) : GoString :=
  wh.Scheme ++ "://".toList ++ wh.Host ++ ":".toList ++ formatUint wh.Port

/-- `validateTarget`: the target after the call (only `ConnectTimeout` can
differ) and the error returned (`none` for `nil`). -/
def validateTarget (wh : WaitHost) : WaitHost × Option GoError :=
  match url.Parse (targetString wh) with
  | .error err => (wh, some (.urlError err))
  | .ok _ =>
    if wh.Scheme.length = 0 ∨ acceptedScheme wh.Scheme = false then
      (wh, some (.waitHost ⟨.BAD_SCHEME⟩))
    else if wh.Host.length = 0 then (wh, some (.waitHost ⟨.BAD_HOST⟩))
    else if wh.Port = 0 then (wh, some (.waitHost ⟨.BAD_PORT⟩))
    else if wh.ConnectTimeout = 0 then ({ wh with ConnectTimeout := 1 * Second }, none)
    else (wh, none)

/-! ## The probe loop -/

/-- The four message templates of a target. -/
inductive Template
  | wait
  | retry
  | success
  | timeout
  deriving DecidableEq, Repr

/-- A connection returned by `net.Dial`: its identity and what `Close` returns. -/
structure Conn where
  id : Nat
  closeErr : Option NetError
  deriving DecidableEq, Repr

/-- The pair `(conn, err)` that a call of `net.Dial` returns; `none` is `nil`. -/
structure DialResult where
  conn : Option Conn
  err : Option NetError
  deriving DecidableEq, Repr

/-- The observable steps of a run, in the order they happen. `print` carries
the template field the caller handed to `printMessage` and the line given to
`logger.Print`. -/
inductive Event
  | now (t : Int)
  | print (which : Template) (line : GoString)
  | dial (network address : GoString)
  | close (conn : Conn)
  | sleep (d : Int)
  deriving DecidableEq, Repr

/-- The environment of a run: `elapse n` is the time that passes before the
`n`-th reading of the clock (in addition to time spent sleeping; a negative
value is a clock that steps back), `dial n` is what the `n`-th call of
`net.Dial` returns. -/
structure World where
  elapse : Nat → Int
  dial : Nat → DialResult

/-- State of a run: the clock, the number of clock readings and dial attempts
made so far, and the events so far. -/
structure Run where
  clock : Int
  reads : Nat
  dials : Nat
  trace : List Event
  deriving DecidableEq, Repr

/-- The state in which a run starts. -/
def Run.init : Run := { clock := 0, reads := 0, dials := 0, trace := [] }

/-- Go `time.Now()`: the reading and the state after it. -/
def timeNow (w : World) (r : Run) : Int × Run :=
  let t := r.clock + w.elapse r.reads
  (t, { r with clock := t, reads := r.reads + 1, trace := r.trace ++ [.now t] })

/-- Go `time.Sleep(d)`: pauses for `d`; returns at once when `d <= 0`. -/
def timeSleep (d : Int) (r : Run) : Run :=
  { r with clock := r.clock + max d 0, trace := r.trace ++ [.sleep d] }

/-- Go `net.Dial(network, address)`. -/
def netDial (w : World) (network address : GoString) (r : Run) : DialResult × Run :=
  (w.dial r.dials, { r with dials := r.dials + 1, trace := r.trace ++ [.dial network address] })

/-- Go `conn.Close()`. -/
def connClose (conn : Conn) (r : Run) : Option GoError × Run :=
  (conn.closeErr.map .netError, { r with trace := r.trace ++ [.close conn] })

/-- `(*WaitHost).printMessage`, called with the template field `which` whose
value is `message`. -/
def WaitHost.printMessage (wh : WaitHost) (which : Template) (message : GoString) (r : Run) :
    Run :=
  if wh.logger = none then r
  else if message.length = 0 then r
  else
    let message := strings.ReplaceAll message "{scheme}".toList wh.Scheme
    let message := strings.ReplaceAll message "{host}".toList wh.Host
    let message := strings.ReplaceAll message "{port}".toList (formatUint wh.Port)
    { r with trace := r.trace ++ [.print which message] }

/-- The `for` loop of `check`, run for at most `fuel` iterations; `none` when
the loop is still running after that many. The result is the value returned
(`none` for `nil`) and the final state. -/
def checkLoop (w : World) (wh : WaitHost) (network address : GoString) (start : Int) :
    Nat → Run → Option (Option GoError × Run)
  | 0, _ => none
  | fuel + 1, r =>
    -- Check if the timeout is reached
    let deadline : Bool × Run :=
      if wh.Timeout > 0 then
        (decide ((timeNow w r).1 - start ≥ wh.Timeout), (timeNow w r).2)
      else (false, r)
    if deadline.1 then
      some (some (.waitHost ⟨.TIMEOUT⟩), wh.printMessage .timeout wh.timeoutMessage deadline.2)
    else
      -- Current time
      let td := timeNow w deadline.2
      -- try to connect
      let d := netDial w network address td.2
      match d.1.err, d.1.conn with
      | none, _ => some (none, wh.printMessage .success wh.successMessage d.2)
      | some _, some conn =>
        match connClose conn d.2 with
        | (some err, r') => some (some err, r')
        | (none, r') => some (none, r')
      | some _, none =>
        -- Wait
        let t := timeNow w d.2
        let tw := t.1 - td.1
        let slept := if tw < wh.ConnectTimeout then timeSleep (wh.ConnectTimeout - tw) t.2 else t.2
        -- retry message
        checkLoop w wh network address start fuel (wh.printMessage .retry wh.retryMessage slept)

/-- `check`, with at most `fuel` iterations of its loop. -/
def check (w : World) (wh : WaitHost) (network address : GoString) (fuel : Nat) (r : Run) :
    Option (Option GoError × Run) :=
  -- Start time
  let start := timeNow w r
  -- wait message
  checkLoop w wh network address start.1 fuel (wh.printMessage .wait wh.waitMessage start.2)

/-- `checkTcp`. -/
def checkTcp (w : World) (wh : WaitHost) (fuel : Nat) (r : Run) : Option (Option GoError × Run) :=
  check w wh "tcp".toList (wh.Host ++ ":".toList ++ formatUint wh.Port) fuel r

/-- `checkHttp`. -/
def checkHttp (w : World) (wh : WaitHost) (fuel : Nat) (r : Run) : Option (Option GoError × Run) :=
  check w wh "tcp".toList (wh.Host ++ ":".toList ++ wh.Scheme) fuel r

/-- `checkHttps`. -/
def checkHttps (w : World) (wh : WaitHost) (fuel : Nat) (r : Run) :
    Option (Option GoError × Run) :=
  check w wh "tcp".toList (wh.Host ++ ":".toList ++ wh.Scheme) fuel r

/-- How a call ends: it returns an error value (`none` for `nil`), or it panics. -/
inductive Exit
  | returned (err : Option GoError)
  | panicked
  deriving DecidableEq, Repr

/-- The map `checkFunc`; `none` is the nil function a missing key yields. -/
def checkFunc (scheme : GoString) :
    Option (World → WaitHost → Nat → Run → Option (Option GoError × Run)) :=
  if scheme = "tcp".toList then some checkTcp
  else if scheme = "http".toList then some checkHttp
  else if scheme = "https".toList then some checkHttps
  else if scheme = [] then some (fun _ _ _ r => some (some (.waitHost ⟨.BAD_SCHEME⟩), r))
  else none

/-- `(*WaitHost).Wait`: how the call ends, the target after it and the final
state; `none` when `check` is still looping after `fuel` iterations. -/
def WaitHost.Wait (w : World) (wh : WaitHost) (fuel : Nat) (r : Run) :
    Option (Exit × WaitHost × Run) :=
  -- Validate
  match validateTarget wh with
  | (wh', some err) => some (.returned (some err), wh', r)
  | (wh', none) =>
    -- Check
    match checkFunc wh'.Scheme with
    | none => some (.panicked, wh', r)
    | some f =>
      match f w wh' fuel r with
      | none => none
      | some (err, r') => some (.returned err, wh', r')

/-- `Wait(target)`: how the call ends and the final state. -/
def Wait (w : World) (target : GoString) (fuel : Nat) (r : Run) : Option (Exit × Run) :=
  match extractTarget target with
  | .error err => some (.returned (some err), r)
  | .ok wh =>
    match wh.Wait w fuel r with
    | none => none
    | some (e, _, r') => some (e, r')

/-- A byte of a plain host name or IPv4 literal: a letter, a digit, `-` or `.`. -/
def isHostnameByte (c : Char) : Bool := isLetter c || isDigit c || c = '-' || c = '.'

/-- A byte of a plain authority `host` or `host:port`: a host name byte or `:`. -/
def isAuthorityByte (c : Char) : Bool := isHostnameByte c || c = ':'

/-! ## Specification vocabulary -/

/-- The contract of `net.Dial`: an error comes with a nil connection. -/
def DialContract (w : World) : Prop :=
  ∀ n, (w.dial n).err ≠ none → (w.dial n).conn = none

/-- The events one call of `printMessage` adds to the trace. -/
def WaitHost.printed (wh : WaitHost) (which : Template) (message : GoString) : List Event :=
  (wh.printMessage which message Run.init).trace

/-- The deadline check that opens an iteration has passed. -/
def Expired (w : World) (wh : WaitHost) (start : Int) (r : Run) : Prop :=
  wh.Timeout > 0 ∧ (timeNow w r).1 - start ≥ wh.Timeout

/-- State after the deadline check of an iteration: the clock is read only
when `Timeout > 0`. -/
def afterDeadline (w : World) (wh : WaitHost) (r : Run) : Run :=
  if wh.Timeout > 0 then (timeNow w r).2 else r

/-- State right after the dial attempt of an iteration that starts in `r`. -/
def afterDial (w : World) (wh : WaitHost) (network address : GoString) (r : Run) : Run :=
  (netDial w network address (timeNow w (afterDeadline w wh r)).2).2

/-- State at the end of an iteration whose dial failed: after the clock
reading, the pacing sleep and the retry message. -/
def afterRetry (w : World) (wh : WaitHost) (network address : GoString) (r : Run) : Run :=
  let td := timeNow w (afterDeadline w wh r)
  let t := timeNow w (afterDial w wh network address r)
  let tw := t.1 - td.1
  wh.printMessage .retry wh.retryMessage
    (if tw < wh.ConnectTimeout then timeSleep (wh.ConnectTimeout - tw) t.2 else t.2)

/-- The line `printMessage` hands to the logger for a template: `{scheme}`,
`{host}` and `{port}` replaced, in this order. -/
def WaitHost.render (wh : WaitHost) (message : GoString) : GoString :=
  strings.ReplaceAll
    (strings.ReplaceAll (strings.ReplaceAll message "{scheme}".toList wh.Scheme)
      "{host}".toList wh.Host)
    "{port}".toList (formatUint wh.Port)

/-- A world in which every dial is refused and the clock moves only while sleeping. -/
def worldRefusing : World :=
  { elapse := fun _ => 0, dial := fun _ => ⟨none, some ⟨"connection refused".toList⟩⟩ }

/-- A world in which the first `n` dials are refused and the later ones
succeed, each step taking a millisecond. -/
def worldAcceptingAfter (n : Nat) : World :=
  { elapse := fun _ => 1000000
    dial := fun k =>
      if k < n then ⟨none, some ⟨"connection refused".toList⟩⟩
      else ⟨some ⟨k, none⟩, none⟩ }

/-- The target `tcp://localhost:1123` with the given timeouts, every message set. -/
def sampleTarget (timeout connectTimeout : Int) : WaitHost :=
  { Scheme := "tcp".toList
    Host := "localhost".toList
    Port := 1123
    Timeout := timeout
    ConnectTimeout := connectTimeout
    logger := some .defaultLogger
    waitMessage := "waiting for {host}".toList
    retryMessage := DefaultRetryMessage
    successMessage := "{host}:{port} is up".toList
    timeoutMessage := "gave up on {scheme}://{host}:{port}".toList }


/-- The sample target with its scheme removed. -/
def emptySchemeTarget : WaitHost := { sampleTarget 0 Second with Scheme := [] }

/-- The values a call ends with when nothing goes wrong beyond the kinds the
package names: `nil`, the error of a failed `url.Parse`, or a `WaitHostError`
whose code is TIMEOUT, BAD_SCHEME, BAD_HOST or BAD_PORT. -/
def Exit.expected (x : Exit) : Prop :=
  x = .returned none ∨ (∃ err, x = .returned (some (.urlError err))) ∨
    ∃ code, x = .returned (some (.waitHost ⟨code⟩)) ∧
      (code = .TIMEOUT ∨ code = .BAD_SCHEME ∨ code = .BAD_HOST ∨ code = .BAD_PORT)


/-- The target `http://localhost:8080`: the sample target with scheme `http`
and the port set to 8080, as `http://localhost:8080` resolves or as the port
override of the command line sets it. -/
def httpTarget : WaitHost := { sampleTarget 0 Second with Scheme := "http".toList, Port := 8080 }

/-- The target `extractTarget` builds for a scheme, a host name and a port:
default timeout, one second between attempts, the default logger and only the
retry message set. -/
def resolvedTarget (scheme host : GoString) (port : Nat) : WaitHost :=
  { Scheme := scheme
    Host := host
    Port := port
    Timeout := DefaultTimeout
    ConnectTimeout := 1 * Second
    logger := some .defaultLogger
    waitMessage := []
    retryMessage := DefaultRetryMessage
    successMessage := []
    timeoutMessage := [] }

/-- The clock reading `td` taken right before the dial attempt of the
iteration that starts in `r`: the start time of that attempt. -/
def dialStart (w : World) (wh : WaitHost) (r : Run) : Int :=
  (timeNow w (afterDeadline w wh r)).1

/-- The clock reading taken right after the failed dial attempt of the
iteration that starts in `r`. -/
def dialEnd (w : World) (wh : WaitHost) (network address : GoString) (r : Run) : Int :=
  (timeNow w (afterDial w wh network address r)).1

/-- The lines printed in a sequence of events, in order. -/
def prints (es : List Event) : List Event :=
  es.filter fun e =>
    match e with
    | .print _ _ => true
    | _ => false

/-- The substitution the specification describes, scanning the template once
from the left: at each occurrence of `{scheme}`, `{host}` or `{port}` the
value is written in its place and the scan goes on after the occurrence; every
other byte is copied. `skip` counts the bytes of an occurrence still to pass. -/
def substituteFrom (wh : WaitHost) : Nat → GoString → GoString
  | _, [] => []
  | 0, c :: cs =>
    if "{scheme}".toList.isPrefixOf (c :: cs) then wh.Scheme ++ substituteFrom wh 7 cs
    else if "{host}".toList.isPrefixOf (c :: cs) then wh.Host ++ substituteFrom wh 5 cs
    else if "{port}".toList.isPrefixOf (c :: cs) then formatUint wh.Port ++ substituteFrom wh 5 cs
    else c :: substituteFrom wh 0 cs
  | skip + 1, _ :: cs => substituteFrom wh skip cs

/-- The template with every occurrence of `{scheme}`, `{host}` and `{port}`
replaced by the target's values and all other text left as it is. -/
def substituteSpec (wh : WaitHost) (template : GoString) : GoString :=
  substituteFrom wh 0 template

/-- No `{` of the text lies inside a brace group, that is between a `{` and the
next `}` (or the end of the text); `inGroup` tells whether the scan is inside one. -/
def noNestedBrace : Bool → GoString → Bool
  | _, [] => true
  | false, c :: cs => if c = '{' then noNestedBrace true cs else noNestedBrace false cs
  | true, c :: cs =>
    if c = '{' then false
    else if c = '}' then noNestedBrace false cs
    else noNestedBrace true cs

/-- The target `tcp://or:1123`: the sample target with the host `or`. -/
def orTarget : WaitHost := { sampleTarget 0 Second with Host := "or".toList }

/-- What a brace group `{name}` of a template stands for: the value of the
target for `scheme`, `host` and `port`, the group itself for any other name. -/
def WaitHost.fillGroup (wh : WaitHost) (name : GoString) : GoString :=
  if "scheme".toList = name then wh.Scheme
  else if "host".toList = name then wh.Host
  else if "port".toList = name then formatUint wh.Port
  else '{' :: (name ++ ['}'])

/-- The state in which the loop of `check` starts: after the reading of the
start time and the wait message. -/
def loopStart (w : World) (wh : WaitHost) (r : Run) : Run :=
  wh.printMessage .wait wh.waitMessage (timeNow w r).2

/-- The state at the start of iteration `k` of the loop when the dial attempts
of all iterations before it failed. -/
def retryStates (w : World) (wh : WaitHost) (network address : GoString) (r : Run) : Nat → Run
  | 0 => r
  | k + 1 => afterRetry w wh network address (retryStates w wh network address r k)

/-- The events of an iteration that starts in `s` and whose dial attempt
fails, with `tw = dialEnd - dialStart`: the reading of the deadline check
(made only when `Timeout > 0`), the reading `td`, the dial, the reading that
gives `tw`, a sleep of `ConnectTimeout - tw` when `tw < ConnectTimeout` and no
sleep otherwise, and then what `printMessage` emits for the retry template. -/
def iterationEvents (w : World) (wh : WaitHost) (network address : GoString) (s : Run) :
    List Event :=
  (if wh.Timeout > 0 then [.now (timeNow w s).1] else []) ++
    [.now (dialStart w wh s), .dial network address, .now (dialEnd w wh network address s)] ++
    (if dialEnd w wh network address s - dialStart w wh s < wh.ConnectTimeout then
      [.sleep (wh.ConnectTimeout - (dialEnd w wh network address s - dialStart w wh s))]
     else []) ++
    wh.printed .retry wh.retryMessage

/-! ## The command line (`cmd/main.go`) -/

/-- The arguments and flag values `Run` reads; the defaults are those `main` declares. -/
structure cmd.Flags where
  args : List GoString := []
  host : GoString := []
  port : Nat := 0
  delay : Nat := 0
  message : GoString := "Waiting for connection on {host}:{port}".toList
  quiet : Bool := false
  timeout : Nat := 0

/-- An integer wrapped to the range of `int64`. -/
def wrapInt64 (x : Int) : Int := (x + 2 ^ 63) % 2 ^ 64 - 2 ^ 63

/-- The conversion `time.Duration(n) * time.Second` of a `uint` number of seconds. -/
def secondsToDuration (n : Nat) : Int := wrapInt64 (wrapInt64 n * Second)

/-- The address `Run` resolves: the first argument, or else the `host` flag. -/
def cmd.address (f : cmd.Flags) : GoString :=
  match f.args with
  | a :: _ => a
  | [] => f.host

/-- The overrides `Run` applies to the resolved target: port, delay, timeout,
retry message and the quiet flag, in this order. -/
def cmd.overrides (f : cmd.Flags) (wh : WaitHost) : WaitHost :=
  let wh := if f.port > 0 then { wh with Port := f.port } else wh
  let wh := if f.delay > 0 then { wh with ConnectTimeout := secondsToDuration f.delay } else wh
  let wh := if f.timeout > 0 then { wh with Timeout := secondsToDuration f.timeout } else wh
  let wh := if f.message.length > 0 then wh.SetRetryMessage f.message else wh
  if f.quiet then wh.SetRetryMessage [] else wh

/-- The exit status `Run` chooses from the way `wh.Wait()` ended: 1 for a
`WaitHostError` of code TIMEOUT, 2 for any other error (and for a panic, as
the Go runtime does), 0 for `nil`. -/
def cmd.waitStatus (x : Exit) : Nat :=
  match x with
  | .returned none => 0
  | .returned (some (.waitHost e)) => if e.Code = .TIMEOUT then 1 else 2
  | .returned (some _) => 2
  | .panicked => 2

/-- The function `Run` of the command: the status given to `os.Exit` and the
final state of the run; `none` when `Wait` is still looping after `fuel`
iterations. -/
def cmd.Run (w : World) (f : cmd.Flags) (fuel : Nat) (r : Run) : Option (Nat × Run) :=
  -- host and scheme
  if (cmd.address f).length > 0 then
    match New (cmd.address f) with
    | .error _ => some (2, r)
    | .ok wh0 =>
      let wh := cmd.overrides f wh0
      if wh.Scheme.length = 0 ∨ wh.Host.length = 0 ∨ wh.Port = 0 then some (1, r)
      else
        match wh.Wait w fuel r with
        | none => none
        | some (x, _, r') => some (cmd.waitStatus x, r')
  else some (2, r)

/-! ## Basic facts about the steps of a run -/

theorem printMessage_eq (wh : WaitHost) (k : Template) (m : GoString) (r : Run) :
    wh.printMessage k m r = { r with trace := r.trace ++ wh.printed k m } := by
  unfold WaitHost.printed WaitHost.printMessage
  by_cases h1 : wh.logger = none
  · simp [h1, Run.init]
  · by_cases h2 : m.length = 0
    · simp [h1, h2, Run.init]
    · simp [h1, h2, Run.init]

theorem printed_which (wh : WaitHost) (k : Template) (m : GoString) (e : Event)
    (h : e ∈ wh.printed k m) : ∃ line, e = .print k line := by
  unfold WaitHost.printed WaitHost.printMessage at h
  by_cases h1 : wh.logger = none
  · simp [h1, Run.init] at h
  · by_cases h2 : m.length = 0
    · simp [h1, h2, Run.init] at h
    · simp [h1, h2, Run.init] at h
      exact ⟨_, h⟩

@[simp] theorem printMessage_clock (wh : WaitHost) (k : Template) (m : GoString) (r : Run) :
    (wh.printMessage k m r).clock = r.clock := by rw [printMessage_eq]

@[simp] theorem printMessage_reads (wh : WaitHost) (k : Template) (m : GoString) (r : Run) :
    (wh.printMessage k m r).reads = r.reads := by rw [printMessage_eq]

@[simp] theorem printMessage_dials (wh : WaitHost) (k : Template) (m : GoString) (r : Run) :
    (wh.printMessage k m r).dials = r.dials := by rw [printMessage_eq]

@[simp] theorem printMessage_trace (wh : WaitHost) (k : Template) (m : GoString) (r : Run) :
    (wh.printMessage k m r).trace = r.trace ++ wh.printed k m := by rw [printMessage_eq]


@[simp] theorem afterDeadline_dials (w : World) (wh : WaitHost) (r : Run) :
    (afterDeadline w wh r).dials = r.dials := by
  unfold afterDeadline; split <;> simp [timeNow]

@[simp] theorem afterDial_dials (w : World) (wh : WaitHost) (network address : GoString)
    (r : Run) : (afterDial w wh network address r).dials = r.dials + 1 := by
  simp [afterDial, netDial, timeNow]

@[simp] theorem afterRetry_dials (w : World) (wh : WaitHost) (network address : GoString)
    (r : Run) : (afterRetry w wh network address r).dials = r.dials + 1 := by
  simp only [afterRetry, printMessage_dials]
  split <;> simp [timeSleep, timeNow]

/-- The iteration ends the loop with `TIMEOUT` when its deadline check finds the timeout reached. -/
theorem checkLoop_expired (w : World) (wh : WaitHost) (network address : GoString) (start : Int)
    (fuel : Nat) (r : Run) (h : Expired w wh start r) :
    checkLoop w wh network address start (fuel + 1) r =
      some (some (.waitHost ⟨.TIMEOUT⟩),
        wh.printMessage .timeout wh.timeoutMessage (timeNow w r).2) := by
  obtain ⟨h1, h2⟩ := h
  rw [checkLoop]; simp [h1, h2]

/-- The iteration returns `nil` when its dial attempt returns no error. -/
theorem checkLoop_success (w : World) (wh : WaitHost) (network address : GoString) (start : Int)
    (fuel : Nat) (r : Run) (h : ¬ Expired w wh start r) (hd : (w.dial r.dials).err = none) :
    checkLoop w wh network address start (fuel + 1) r =
      some (none, wh.printMessage .success wh.successMessage (afterDial w wh network address r)) := by
  rw [checkLoop]
  unfold Expired at h
  by_cases hT : wh.Timeout > 0
  · have h2 : ¬ ((timeNow w r).1 - start ≥ wh.Timeout) := fun h' => h ⟨hT, h'⟩
    have hd' : (netDial w network address (timeNow w (timeNow w r).2).2).1.err = none := by
      simpa [netDial, timeNow] using hd
    simp only [hT, h2, if_true, decide_False, Bool.false_eq_true, if_false, afterDial,
      afterDeadline]
    split <;> simp_all
  · have hd' : (netDial w network address (timeNow w r).2).1.err = none := by
      simpa [netDial, timeNow] using hd
    simp only [hT, if_false, Bool.false_eq_true, afterDial, afterDeadline]
    split <;> simp_all

/-- The iteration closes the connection and returns what `Close` returns when
its dial attempt returns an error together with a connection. -/
theorem checkLoop_close (w : World) (wh : WaitHost) (network address : GoString) (start : Int)
    (fuel : Nat) (r : Run) (h : ¬ Expired w wh start r) (err : NetError) (conn : Conn)
    (hd : (w.dial r.dials).err = some err) (hc : (w.dial r.dials).conn = some conn) :
    checkLoop w wh network address start (fuel + 1) r =
      some (conn.closeErr.map .netError, (connClose conn (afterDial w wh network address r)).2) := by
  rw [checkLoop]
  unfold Expired at h
  by_cases hT : wh.Timeout > 0
  · have h2 : ¬ ((timeNow w r).1 - start ≥ wh.Timeout) := fun h' => h ⟨hT, h'⟩
    have hd' : (netDial w network address (timeNow w (timeNow w r).2).2).1.err = some err := by
      simpa [netDial, timeNow] using hd
    have hc' : (netDial w network address (timeNow w (timeNow w r).2).2).1.conn = some conn := by
      simpa [netDial, timeNow] using hc
    simp only [hT, h2, if_true, decide_False, Bool.false_eq_true, if_false, afterDial,
      afterDeadline]
    split
    · simp_all
    · rename_i hx hy
      rw [hc'] at hy
      cases hy
      cases hce : conn.closeErr <;> simp [connClose, hce]
    · simp_all
  · have hd' : (netDial w network address (timeNow w r).2).1.err = some err := by
      simpa [netDial, timeNow] using hd
    have hc' : (netDial w network address (timeNow w r).2).1.conn = some conn := by
      simpa [netDial, timeNow] using hc
    simp only [hT, if_false, Bool.false_eq_true, afterDial, afterDeadline]
    split
    · simp_all
    · rename_i hx hy
      rw [hc'] at hy
      cases hy
      cases hce : conn.closeErr <;> simp [connClose, hce]
    · simp_all

/-- The iteration goes on to the next one when its dial attempt returns an
error and no connection. -/
theorem checkLoop_retry (w : World) (wh : WaitHost) (network address : GoString) (start : Int)
    (fuel : Nat) (r : Run) (h : ¬ Expired w wh start r) (err : NetError)
    (hd : (w.dial r.dials).err = some err) (hc : (w.dial r.dials).conn = none) :
    checkLoop w wh network address start (fuel + 1) r =
      checkLoop w wh network address start fuel (afterRetry w wh network address r) := by
  rw [checkLoop]
  unfold Expired at h
  by_cases hT : wh.Timeout > 0
  · have h2 : ¬ ((timeNow w r).1 - start ≥ wh.Timeout) := fun h' => h ⟨hT, h'⟩
    have hd' : (netDial w network address (timeNow w (timeNow w r).2).2).1.err = some err := by
      simpa [netDial, timeNow] using hd
    have hc' : (netDial w network address (timeNow w (timeNow w r).2).2).1.conn = none := by
      simpa [netDial, timeNow] using hc
    simp only [hT, h2, if_true, decide_False, Bool.false_eq_true, if_false, afterDial,
      afterDeadline, afterRetry]
    split
    · simp_all
    · simp_all
    · rfl
  · have hd' : (netDial w network address (timeNow w r).2).1.err = some err := by
      simpa [netDial, timeNow] using hd
    have hc' : (netDial w network address (timeNow w r).2).1.conn = none := by
      simpa [netDial, timeNow] using hc
    simp only [hT, if_false, Bool.false_eq_true, afterDial, afterDeadline, afterRetry]
    split
    · simp_all
    · simp_all
    · rfl

theorem afterDial_trace (w : World) (wh : WaitHost) (network address : GoString) (r : Run) :
    ∃ added, (afterDial w wh network address r).trace = r.trace ++ added ∧
      ∀ e ∈ added, (∃ t, e = .now t) ∨ e = .dial network address := by
  unfold afterDial afterDeadline
  by_cases hT : wh.Timeout > 0
  · refine ⟨[.now (r.clock + w.elapse r.reads),
      .now (r.clock + w.elapse r.reads + w.elapse (r.reads + 1)), .dial network address], ?_, ?_⟩
    · simp [hT, netDial, timeNow]
    · intro e he; simp at he; rcases he with rfl | rfl | rfl <;> simp
  · refine ⟨[.now (r.clock + w.elapse r.reads), .dial network address], ?_, ?_⟩
    · simp [hT, netDial, timeNow]
    · intro e he; simp at he; rcases he with rfl | rfl <;> simp

theorem afterRetry_trace (w : World) (wh : WaitHost) (network address : GoString) (r : Run) :
    ∃ added, (afterRetry w wh network address r).trace = r.trace ++ added ∧
      ∀ e ∈ added, (∃ t, e = .now t) ∨ e = .dial network address ∨ (∃ d, e = .sleep d) ∨
        ∃ line, e = .print .retry line := by
  obtain ⟨a1, h1, h1'⟩ := afterDial_trace w wh network address r
  unfold afterRetry
  simp only [printMessage_trace]
  split
  · refine ⟨a1 ++ [.now ((afterDial w wh network address r).clock +
        w.elapse (afterDial w wh network address r).reads),
        .sleep (wh.ConnectTimeout - ((timeNow w (afterDial w wh network address r)).1 -
          (timeNow w (afterDeadline w wh r)).1))] ++
        wh.printed .retry wh.retryMessage, ?_, ?_⟩
    · simp [timeSleep, timeNow, h1]
    · intro e he
      simp only [List.mem_append, List.mem_cons, List.mem_singleton, List.not_mem_nil,
        or_false] at he
      rcases he with (he | he | he) | he
      · rcases h1' e he with h | h
        · exact Or.inl h
        · exact Or.inr (Or.inl h)
      · exact Or.inl ⟨_, he⟩
      · exact Or.inr (Or.inr (Or.inl ⟨_, he⟩))
      · exact Or.inr (Or.inr (Or.inr (printed_which wh _ _ e he)))
  · refine ⟨a1 ++ [.now ((afterDial w wh network address r).clock +
        w.elapse (afterDial w wh network address r).reads)] ++
        wh.printed .retry wh.retryMessage, ?_, ?_⟩
    · simp [timeNow, h1]
    · intro e he
      simp only [List.mem_append, List.mem_cons, List.mem_singleton, List.not_mem_nil,
        or_false] at he
      rcases he with (he | he) | he
      · rcases h1' e he with h | h
        · exact Or.inl h
        · exact Or.inr (Or.inl h)
      · exact Or.inl ⟨_, he⟩
      · exact Or.inr (Or.inr (Or.inr (printed_which wh _ _ e he)))

/-- How the loop of `check` can end: on a deadline check, with `TIMEOUT`; or
right after a dial attempt, which either returned no error or returned a
connection together with its error. -/
theorem checkLoop_exit (w : World) (wh : WaitHost) (network address : GoString) (start : Int) :
    ∀ (fuel : Nat) (r : Run) (e : Option GoError) (r' : Run),
      checkLoop w wh network address start fuel r = some (e, r') →
      ∃ added, r'.trace = r.trace ++ added ∧ r.dials ≤ r'.dials ∧
        ((e = some (.waitHost ⟨.TIMEOUT⟩) ∧ 0 < wh.Timeout ∧ wh.Timeout ≤ r'.clock - start) ∨
         ((∀ line, Event.print .timeout line ∉ added) ∧ r.dials < r'.dials ∧
           (((w.dial (r'.dials - 1)).err = none ∧ e = none) ∨
            ∃ err conn, (w.dial (r'.dials - 1)).err = some err ∧
              (w.dial (r'.dials - 1)).conn = some conn ∧
              e = conn.closeErr.map .netError))) := by
  intro fuel
  induction fuel with
  | zero => intro r e r' h; simp [checkLoop] at h
  | succ fuel ih =>
    intro r e r' h
    by_cases hx : Expired w wh start r
    · rw [checkLoop_expired _ _ _ _ _ _ _ hx] at h
      simp only [Option.some.injEq, Prod.mk.injEq] at h
      obtain ⟨rfl, rfl⟩ := h
      refine ⟨[.now (r.clock + w.elapse r.reads)] ++ wh.printed .timeout wh.timeoutMessage,
        by simp [timeNow], by simp [timeNow], Or.inl ⟨rfl, hx.1, ?_⟩⟩
      simpa [timeNow] using hx.2
    · obtain ⟨a1, h1, h1'⟩ := afterDial_trace w wh network address r
      cases hd : (w.dial r.dials).err with
      | none =>
        rw [checkLoop_success _ _ _ _ _ _ _ hx hd] at h
        simp only [Option.some.injEq, Prod.mk.injEq] at h
        obtain ⟨rfl, rfl⟩ := h
        refine ⟨a1 ++ wh.printed .success wh.successMessage, by simp [h1], by simp,
          Or.inr ⟨?_, by simp, Or.inl ⟨by simpa using hd, rfl⟩⟩⟩
        intro line hmem
        rcases List.mem_append.1 hmem with hm | hm
        · rcases h1' _ hm with ⟨t, ht⟩ | ht <;> cases ht
        · obtain ⟨l, hl⟩ := printed_which wh _ _ _ hm
          cases hl
      | some err =>
        cases hc : (w.dial r.dials).conn with
        | some conn =>
          rw [checkLoop_close _ _ _ _ _ _ _ hx err conn hd hc] at h
          simp only [Option.some.injEq, Prod.mk.injEq] at h
          obtain ⟨rfl, rfl⟩ := h
          refine ⟨a1 ++ [.close conn], by simp [connClose, h1], by simp [connClose],
            Or.inr ⟨?_, by simp [connClose], Or.inr ⟨err, conn, by simpa [connClose] using hd,
              by simpa [connClose] using hc, rfl⟩⟩⟩
          intro line hmem
          rcases List.mem_append.1 hmem with hm | hm
          · rcases h1' _ hm with ⟨t, ht⟩ | ht <;> cases ht
          · simp at hm
        | none =>
          rw [checkLoop_retry _ _ _ _ _ _ _ hx err hd hc] at h
          obtain ⟨a2, h2, hdials, hcases⟩ := ih _ _ _ h
          obtain ⟨a3, h3, h3'⟩ := afterRetry_trace w wh network address r
          rw [afterRetry_dials] at hdials
          refine ⟨a3 ++ a2, by rw [h2, h3, List.append_assoc], by omega, ?_⟩
          rcases hcases with hto | ⟨hnt, _, hlast⟩
          · exact Or.inl hto
          · refine Or.inr ⟨?_, by omega, hlast⟩
            intro line hmem
            rcases List.mem_append.1 hmem with hm | hm
            · rcases h3' _ hm with ⟨t, ht⟩ | ht | ⟨d, ht⟩ | ⟨l, ht⟩ <;> cases ht
            · exact hnt line hm

theorem printed_eq_render (wh : WaitHost) (k : Template) (m : GoString)
    (hl : wh.logger ≠ none) (hm : m ≠ []) : wh.printed k m = [.print k (wh.render m)] := by
  have hm' : ¬ m.length = 0 := by simpa using hm
  simp [WaitHost.printed, WaitHost.printMessage, WaitHost.render, hl, hm', Run.init]

theorem afterRetry_clock (w : World) (wh : WaitHost) (network address : GoString) (r : Run)
    (hmono : ∀ n, 0 ≤ w.elapse n) :
    r.clock + wh.ConnectTimeout ≤ (afterRetry w wh network address r).clock := by
  have h1 : r.clock ≤ (timeNow w (afterDeadline w wh r)).1 := by
    unfold afterDeadline
    split
    · have := hmono r.reads; have := hmono (r.reads + 1); simp [timeNow]; omega
    · have := hmono r.reads; simpa [timeNow] using this
  have h2 : (timeNow w (afterDeadline w wh r)).1 ≤ (timeNow w (afterDial w wh network address r)).1 := by
    have := hmono (afterDial w wh network address r).reads
    simp only [timeNow, afterDial, netDial] at this ⊢
    omega
  have h3 : (timeNow w (afterDial w wh network address r)).2.clock =
      (timeNow w (afterDial w wh network address r)).1 := rfl
  simp only [afterRetry, printMessage_clock]
  split
  · simp only [timeSleep, h3]
    rw [max_eq_left (by omega)]
    omega
  · rw [h3]; omega

/-- With every dial refused and a clock that never steps back, a loop that has
at most `m` pacing intervals left before the deadline ends with `TIMEOUT`
within `m + 1` iterations, after at most `m` dial attempts, on a deadline
check that reads an elapsed time of at least `Timeout`. -/
theorem checkLoop_times_out (w : World) (wh : WaitHost) (network address : GoString) (start : Int)
    (hT : 0 < wh.Timeout)
    (hfail : ∀ n, (w.dial n).err ≠ none) (hdial : DialContract w)
    (hmono : ∀ n, 0 ≤ w.elapse n) :
    ∀ (m fuel : Nat) (r : Run), wh.Timeout - (r.clock - start) ≤ m * wh.ConnectTimeout →
      m < fuel →
      ∃ r' pre, checkLoop w wh network address start fuel r
          = some (some (.waitHost ⟨.TIMEOUT⟩), r') ∧
        r'.dials ≤ r.dials + m ∧
        r'.trace = r.trace ++ pre ++ .now r'.clock :: wh.printed .timeout wh.timeoutMessage ∧
        wh.Timeout ≤ r'.clock - start := by
  intro m
  induction m with
  | zero =>
    intro fuel r hm hf
    obtain ⟨f, rfl⟩ : ∃ f, fuel = f + 1 := ⟨fuel - 1, by omega⟩
    have hx : Expired w wh start r := by
      refine ⟨hT, ?_⟩
      have := hmono r.reads
      simp only [timeNow]
      simp at hm
      omega
    rw [checkLoop_expired _ _ _ _ _ _ _ hx]
    refine ⟨_, [], rfl, by simp [timeNow], by simp [timeNow], ?_⟩
    simpa [timeNow] using hx.2
  | succ m ih =>
    intro fuel r hm hf
    obtain ⟨f, rfl⟩ : ∃ f, fuel = f + 1 := ⟨fuel - 1, by omega⟩
    by_cases hx : Expired w wh start r
    · rw [checkLoop_expired _ _ _ _ _ _ _ hx]
      refine ⟨_, [], rfl, by simp [timeNow], by simp [timeNow], ?_⟩
      simpa [timeNow] using hx.2
    · obtain ⟨err, herr⟩ : ∃ err, (w.dial r.dials).err = some err :=
        Option.ne_none_iff_exists'.1 (hfail r.dials)
      have hconn : (w.dial r.dials).conn = none := hdial _ (hfail r.dials)
      rw [checkLoop_retry _ _ _ _ _ _ _ hx err herr hconn]
      have hclock := afterRetry_clock w wh network address r hmono
      have hm' : wh.Timeout - ((afterRetry w wh network address r).clock - start)
          ≤ m * wh.ConnectTimeout := by
        push_cast at hm
        nlinarith
      obtain ⟨r', pre, h1, h2, h3, h4⟩ := ih f (afterRetry w wh network address r) hm' (by omega)
      obtain ⟨a3, ha3, _⟩ := afterRetry_trace w wh network address r
      refine ⟨r', a3 ++ pre, h1, ?_, ?_, h4⟩
      · rw [afterRetry_dials] at h2; omega
      · rw [h3, ha3]; simp [List.append_assoc]

/-- How `check` can end when `net.Dial` keeps its contract: with `nil` right
after a dial attempt that succeeded, or with the TIMEOUT error. -/
theorem check_exit (w : World) (wh : WaitHost) (network address : GoString)
    (hdial : DialContract w) (fuel : Nat) (r : Run) (e : Option GoError) (r' : Run)
    (h : check w wh network address fuel r = some (e, r')) :
    (e = none ∧ r.dials < r'.dials ∧ (w.dial (r'.dials - 1)).err = none) ∨
      e = some (.waitHost ⟨.TIMEOUT⟩) := by
  unfold check at h
  obtain ⟨added, htr, hdl, hcases⟩ := checkLoop_exit w wh network address _ fuel _ e r' h
  simp only [printMessage_dials, timeNow] at hdl hcases
  rcases hcases with ⟨rfl, _, _⟩ | ⟨_, hlt, hlast⟩
  · exact Or.inr rfl
  · rcases hlast with ⟨hok, rfl⟩ | ⟨err, conn, herr, hconn, _⟩
    · exact Or.inl ⟨rfl, hlt, hok⟩
    · have := hdial (r'.dials - 1) (by simp [herr])
      rw [hconn] at this
      cases this


/-! ## The probe loop: claims C6 to C10 -/

/-- C6: for a target with `Timeout = T > 0` and `ConnectTimeout = c > 0`, when
every dial attempt fails (`net.Dial` returning an error and, as it always does
with an error, no connection) and the clock never steps back (so that it
advances by at least the slept duration on each sleep), `check` terminates:
with any fuel above `ceil(T/c)` it returns the TIMEOUT error, it has made at
most `ceil(T/c)` dial attempts, and the last clock reading of the run, the one
of the deadline check that ends the loop, is at least `T` after the start. -/
theorem check_unreachable_times_out (w : World) (wh : WaitHost) (network address : GoString)
    (fuel : Nat) (r : Run)
    (hT : 0 < wh.Timeout) (hc : 0 < wh.ConnectTimeout)
    (hfail : ∀ n, (w.dial n).err ≠ none) (hdial : DialContract w)
    (hmono : ∀ n, 0 ≤ w.elapse n)
    (hfuel : (wh.Timeout + wh.ConnectTimeout - 1) / wh.ConnectTimeout < (fuel : Int)) :
    ∃ r' pre, check w wh network address fuel r = some (some (.waitHost ⟨.TIMEOUT⟩), r') ∧
      ((r'.dials : Int) - r.dials ≤ (wh.Timeout + wh.ConnectTimeout - 1) / wh.ConnectTimeout) ∧
      r'.trace = r.trace ++ pre ++ .now r'.clock :: wh.printed .timeout wh.timeoutMessage ∧
      wh.Timeout ≤ r'.clock - (timeNow w r).1 := by
  set q := (wh.Timeout + wh.ConnectTimeout - 1) / wh.ConnectTimeout with hq
  have hq0 : 0 ≤ q := Int.ediv_nonneg (by omega) (by omega)
  have hqT : wh.Timeout ≤ q * wh.ConnectTimeout := by
    have h1 := Int.emod_add_ediv (wh.Timeout + wh.ConnectTimeout - 1) wh.ConnectTimeout
    have h2 := Int.emod_lt_of_pos (wh.Timeout + wh.ConnectTimeout - 1) hc
    rw [← hq] at h1
    nlinarith
  obtain ⟨m, hm⟩ : ∃ m : Nat, (m : Int) = q := ⟨q.toNat, Int.toNat_of_nonneg hq0⟩
  have hstart : wh.Timeout -
      ((wh.printMessage .wait wh.waitMessage (timeNow w r).2).clock - (timeNow w r).1)
      ≤ m * wh.ConnectTimeout := by
    have : (wh.printMessage .wait wh.waitMessage (timeNow w r).2).clock = (timeNow w r).1 := by
      simp [timeNow]
    rw [this, hm]; omega
  obtain ⟨r', pre, h1, h2, h3, h4⟩ :=
    checkLoop_times_out w wh network address (timeNow w r).1 hT hfail hdial hmono m fuel
      (wh.printMessage .wait wh.waitMessage (timeNow w r).2) hstart (by omega)
  refine ⟨r', .now (timeNow w r).1 :: wh.printed .wait wh.waitMessage ++ pre, h1, ?_, ?_, h4⟩
  · simp only [printMessage_dials, timeNow] at h2
    omega
  · rw [h3]; simp [timeNow]

/-- C6 at `Timeout = 2s`, `ConnectTimeout = 1s` with every dial refused: two dial attempts. -/
theorem check_unreachable_times_out_witness :
    ∃ r' pre, check worldRefusing (sampleTarget (2 * Second) Second) "tcp".toList
        "localhost:1123".toList 3 Run.init = some (some (.waitHost ⟨.TIMEOUT⟩), r') ∧
      ((r'.dials : Int) - Run.init.dials ≤
        ((sampleTarget (2 * Second) Second).Timeout +
          (sampleTarget (2 * Second) Second).ConnectTimeout - 1) /
          (sampleTarget (2 * Second) Second).ConnectTimeout) ∧
      r'.trace = Run.init.trace ++ pre ++ .now r'.clock ::
        (sampleTarget (2 * Second) Second).printed .timeout
          (sampleTarget (2 * Second) Second).timeoutMessage ∧
      (sampleTarget (2 * Second) Second).Timeout ≤ r'.clock - (timeNow worldRefusing Run.init).1 :=
  check_unreachable_times_out worldRefusing (sampleTarget (2 * Second) Second) "tcp".toList
    "localhost:1123".toList 3 Run.init (by decide) (by decide)
    (fun _ => by simp [worldRefusing]) (fun _ _ => rfl) (fun _ => le_refl _) (by decide)

/-- C7: for a target with `Timeout = 0`, whatever the clock readings and the
dial outcomes, a call of `check` that returns does not return the TIMEOUT
error and prints no line from the timeout template; it returns right after a
dial attempt, and since `net.Dial` gives no connection together with an error
(`DialContract`), that attempt succeeded and the value returned is `nil`. -/
theorem check_zero_timeout (w : World) (wh : WaitHost) (network address : GoString)
    (fuel : Nat) (r : Run) (e : Option GoError) (r' : Run)
    (hT : wh.Timeout = 0) (h : check w wh network address fuel r = some (e, r')) :
    e ≠ some (.waitHost ⟨.TIMEOUT⟩) ∧
      (∀ line, Event.print .timeout line ∈ r'.trace → Event.print .timeout line ∈ r.trace) ∧
      r.dials < r'.dials ∧
      (DialContract w → (w.dial (r'.dials - 1)).err = none ∧ e = none) := by
  unfold check at h
  obtain ⟨added, htr, hdl, hcases⟩ := checkLoop_exit w wh network address _ fuel _ e r' h
  simp only [printMessage_trace, printMessage_dials, timeNow] at htr hdl hcases
  rcases hcases with ⟨_, hpos, _⟩ | ⟨hnt, hlt, hlast⟩
  · omega
  · refine ⟨?_, ?_, hlt, ?_⟩
    · rcases hlast with ⟨_, rfl⟩ | ⟨err, conn, _, _, rfl⟩
      · simp
      · cases conn.closeErr <;> simp
    · intro line hmem
      rw [htr] at hmem
      simp only [List.mem_append, List.mem_singleton] at hmem
      rcases hmem with ((hm | hm) | hm) | hm
      · exact hm
      · cases hm
      · obtain ⟨l, hl⟩ := printed_which wh _ _ _ hm
        cases hl
      · exact absurd hm (hnt line)
    · intro hdial
      rcases hlast with hok | ⟨err, conn, herr, hconn, _⟩
      · exact hok
      · have := hdial (r'.dials - 1) (by simp [herr])
        rw [hconn] at this
        cases this

/-- C7 on a run with `Timeout = 0` whose third dial attempt succeeds. -/
theorem check_zero_timeout_witness :
    ∃ r', check (worldAcceptingAfter 2) (sampleTarget 0 Second) "tcp".toList
        "localhost:1123".toList 5 Run.init = some (none, r') ∧
      (none : Option GoError) ≠ some (.waitHost ⟨.TIMEOUT⟩) ∧
      (∀ line, Event.print .timeout line ∈ r'.trace →
        Event.print .timeout line ∈ Run.init.trace) ∧
      Run.init.dials < r'.dials ∧
      (DialContract (worldAcceptingAfter 2) →
        ((worldAcceptingAfter 2).dial (r'.dials - 1)).err = none ∧
        (none : Option GoError) = none) :=
  ⟨_, rfl, check_zero_timeout (worldAcceptingAfter 2) (sampleTarget 0 Second) "tcp".toList
    "localhost:1123".toList 5 Run.init none _ rfl rfl⟩

/-- C8: for a target with `Timeout > 0`, an iteration whose deadline check
finds the elapsed time at or past `Timeout` makes no dial attempt: it hands the
timeout template to `printMessage` (one line, the rendered template, when the
template is non-empty and a logger is set) and returns the TIMEOUT error. In
particular, when this already holds at the first deadline check, `check`
returns the TIMEOUT error without any dial attempt. -/
theorem check_expired_no_dial (w : World) (wh : WaitHost) (network address : GoString)
    (fuel : Nat) :
    (∀ (start : Int) (r : Run), Expired w wh start r →
      ∃ r', checkLoop w wh network address start (fuel + 1) r
          = some (some (.waitHost ⟨.TIMEOUT⟩), r') ∧
        r'.dials = r.dials ∧
        r'.trace = r.trace ++ .now (timeNow w r).1 :: wh.printed .timeout wh.timeoutMessage) ∧
    (∀ r : Run,
      Expired w wh (timeNow w r).1 (wh.printMessage .wait wh.waitMessage (timeNow w r).2) →
      ∃ r', check w wh network address (fuel + 1) r = some (some (.waitHost ⟨.TIMEOUT⟩), r') ∧
        r'.dials = r.dials ∧
        r'.trace = r.trace ++ .now (timeNow w r).1 :: wh.printed .wait wh.waitMessage ++
          .now (timeNow w (timeNow w r).2).1 :: wh.printed .timeout wh.timeoutMessage) ∧
    (wh.logger ≠ none → wh.timeoutMessage ≠ [] →
      wh.printed .timeout wh.timeoutMessage = [.print .timeout (wh.render wh.timeoutMessage)]) := by
  refine ⟨?_, ?_, printed_eq_render wh _ _⟩
  · intro start r hx
    exact ⟨_, checkLoop_expired _ _ _ _ _ _ _ hx, by simp [timeNow], by simp [timeNow]⟩
  · intro r hx
    refine ⟨wh.printMessage .timeout wh.timeoutMessage
      (timeNow w (wh.printMessage .wait wh.waitMessage (timeNow w r).2)).2, ?_, ?_, ?_⟩
    · unfold check
      exact checkLoop_expired _ _ _ _ _ _ _ hx
    · simp [timeNow]
    · simp [timeNow]

/-- C8 on a run whose first deadline check comes a millisecond after the
start, with a timeout of a microsecond. -/
theorem check_expired_no_dial_witness :
    ∃ r', check (worldAcceptingAfter 0) (sampleTarget 1000 Second) "tcp".toList
        "localhost:1123".toList 1 Run.init = some (some (.waitHost ⟨.TIMEOUT⟩), r') ∧
      r'.dials = Run.init.dials ∧
      r'.trace = Run.init.trace ++ .now (timeNow (worldAcceptingAfter 0) Run.init).1 ::
        (sampleTarget 1000 Second).printed .wait (sampleTarget 1000 Second).waitMessage ++
        .now (timeNow (worldAcceptingAfter 0) (timeNow (worldAcceptingAfter 0) Run.init).2).1 ::
        (sampleTarget 1000 Second).printed .timeout (sampleTarget 1000 Second).timeoutMessage :=
  (check_expired_no_dial (worldAcceptingAfter 0) (sampleTarget 1000 Second) "tcp".toList
    "localhost:1123".toList 0).2.1 Run.init ⟨by decide, by decide⟩

/-- C9 fails on the code: on a run whose first dial attempt succeeds, `check`
prints the success message and returns `nil`, and the connection it opened is
never closed: the run consists of two clock readings, the wait message, the
dial and the success message. -/
theorem check_success_leaves_connection_open :
    (worldAcceptingAfter 0).dial 0 = ⟨some ⟨0, none⟩, none⟩ ∧
    check (worldAcceptingAfter 0) (sampleTarget 0 Second) "tcp".toList "localhost:1123".toList 1
        Run.init =
      some (none,
        { clock := 2000000, reads := 2, dials := 1,
          trace := [.now 1000000, .print .wait "waiting for localhost".toList, .now 2000000,
            .dial "tcp".toList "localhost:1123".toList,
            .print .success "localhost:1123 is up".toList] }) := by
  constructor <;> rfl

/-- C10: since `net.Dial` gives no connection together with an error
(`DialContract`), the only non-nil value `check` returns is the TIMEOUT
`WaitHostError`; it returns `nil` only right after a dial attempt that
succeeded; and an iteration whose dial attempt fails does not return, it goes
on to the next iteration after the pacing sleep and the retry message. -/
theorem check_returns_nil_or_timeout (w : World) (wh : WaitHost) (network address : GoString)
    (hdial : DialContract w) :
    (∀ (fuel : Nat) (r : Run) (e : Option GoError) (r' : Run),
      check w wh network address fuel r = some (e, r') →
      (e = none ∨ e = some (.waitHost ⟨.TIMEOUT⟩)) ∧
      (e = none → r.dials < r'.dials ∧ (w.dial (r'.dials - 1)).err = none)) ∧
    (∀ (start : Int) (fuel : Nat) (r : Run), ¬ Expired w wh start r →
      (w.dial r.dials).err ≠ none →
      checkLoop w wh network address start (fuel + 1) r =
        checkLoop w wh network address start fuel (afterRetry w wh network address r)) := by
  constructor
  · intro fuel r e r' h
    rcases check_exit w wh network address hdial fuel r e r' h with ⟨rfl, h1, h2⟩ | rfl
    · exact ⟨Or.inl rfl, fun _ => ⟨h1, h2⟩⟩
    · exact ⟨Or.inr rfl, fun h => by cases h⟩
  · intro start fuel r hx hd
    obtain ⟨err, herr⟩ := Option.ne_none_iff_exists'.1 hd
    exact checkLoop_retry _ _ _ _ _ _ _ hx err herr (hdial _ hd)

/-- C10 in a world whose first dial attempt is refused and whose later ones succeed. -/
theorem check_returns_nil_or_timeout_witness :
    (∀ (fuel : Nat) (r : Run) (e : Option GoError) (r' : Run),
      check (worldAcceptingAfter 1) (sampleTarget 0 Second) "tcp".toList "localhost:1123".toList
        fuel r = some (e, r') →
      (e = none ∨ e = some (.waitHost ⟨.TIMEOUT⟩)) ∧
      (e = none → r.dials < r'.dials ∧ ((worldAcceptingAfter 1).dial (r'.dials - 1)).err = none)) ∧
    (∀ (start : Int) (fuel : Nat) (r : Run),
      ¬ Expired (worldAcceptingAfter 1) (sampleTarget 0 Second) start r →
      ((worldAcceptingAfter 1).dial r.dials).err ≠ none →
      checkLoop (worldAcceptingAfter 1) (sampleTarget 0 Second) "tcp".toList
          "localhost:1123".toList start (fuel + 1) r =
        checkLoop (worldAcceptingAfter 1) (sampleTarget 0 Second) "tcp".toList
          "localhost:1123".toList start fuel
          (afterRetry (worldAcceptingAfter 1) (sampleTarget 0 Second) "tcp".toList
            "localhost:1123".toList r)) :=
  check_returns_nil_or_timeout (worldAcceptingAfter 1) (sampleTarget 0 Second) "tcp".toList
    "localhost:1123".toList (fun n hn => by
      unfold worldAcceptingAfter at hn ⊢
      by_cases h : n < 1 <;> simp_all)

/-! ## Facts about `strings` -/

theorem strings.isPrefixOf_mem (sub l : GoString) (h : sub.isPrefixOf l = true) :
    ∀ y ∈ sub, y ∈ l :=
  fun _ hy => (List.isPrefixOf_iff_prefix.1 h).subset hy

theorem strings.findSub_none (sub s : GoString) (x : Char) (hx : x ∈ sub) (hs : x ∉ s) :
    strings.findSub sub s = none := by
  induction s with
  | nil =>
    have : sub.isEmpty = false := by cases sub <;> simp_all
    simp [strings.findSub, this]
  | cons c cs ih =>
    have hp : sub.isPrefixOf (c :: cs) = false := by
      by_contra hcon
      simp only [Bool.not_eq_false] at hcon
      exact hs (strings.isPrefixOf_mem _ _ hcon x hx)
    have hcs : x ∉ cs := fun h => hs (List.mem_cons_of_mem _ h)
    simp [strings.findSub, hp, ih hcs]

theorem strings.findLastSub_none (sub s : GoString) (x : Char) (hx : x ∈ sub) (hs : x ∉ s) :
    strings.findLastSub sub s = none := by
  induction s with
  | nil =>
    have : sub.isEmpty = false := by cases sub <;> simp_all
    simp [strings.findLastSub, this]
  | cons c cs ih =>
    have hp : sub.isPrefixOf (c :: cs) = false := by
      by_contra hcon
      simp only [Bool.not_eq_false] at hcon
      exact hs (strings.isPrefixOf_mem _ _ hcon x hx)
    have hcs : x ∉ cs := fun h => hs (List.mem_cons_of_mem _ h)
    simp [strings.findLastSub, hp, ih hcs]

theorem strings.findLastSub_append (a b : GoString) (x : Char) (hb : x ∉ b) :
    strings.findLastSub [x] (a ++ x :: b) = some a.length := by
  induction a with
  | nil =>
    have := strings.findLastSub_none [x] b x (by simp) hb
    simp [strings.findLastSub, this, List.isPrefixOf]
  | cons c a ih =>
    simp [strings.findLastSub, ih]

theorem strings.findSub_append (a b : GoString) (x : Char) (ha : x ∉ a) :
    strings.findSub [x] (a ++ x :: b) = some a.length := by
  induction a with
  | nil => simp [strings.findSub, List.isPrefixOf]
  | cons c a ih =>
    have hc : c ≠ x := fun h => ha (by simp [h])
    have ha' : x ∉ a := fun h => ha (List.mem_cons_of_mem _ h)
    have hp : List.isPrefixOf [x] (c :: (a ++ x :: b)) = false := by
      simp [List.isPrefixOf, Ne.symm hc]
    simp [strings.findSub, Ne.symm hc, ih ha']

theorem strings.Cut_none (s : GoString) (x : Char) (hs : x ∉ s) :
    strings.Cut s [x] = (s, [], false) := by
  simp [strings.Cut, strings.findSub_none [x] s x (by simp) hs]

theorem strings.Index_none (sub s : GoString) (x : Char) (hx : x ∈ sub) (hs : x ∉ s) :
    strings.Index s sub = -1 := by
  simp [strings.Index, strings.findSub_none sub s x hx hs]

/-! ## Facts about bytes -/

theorem isHostnameByte_authority (c : Char) (h : isHostnameByte c = true) :
    isAuthorityByte c = true := by
  simp [isAuthorityByte, h]

theorem isDigit_authority (c : Char) (h : isDigit c = true) : isAuthorityByte c = true := by
  simp [isAuthorityByte, isHostnameByte, h]

theorem isAuthorityByte_ne (c : Char) (h : isAuthorityByte c = true) :
    c ≠ '#' ∧ c ≠ '?' ∧ c ≠ '/' ∧ c ≠ '@' ∧ c ≠ '%' ∧ c ≠ '+' ∧ c ≠ '[' := by
  refine ⟨?_, ?_, ?_, ?_, ?_, ?_, ?_⟩ <;> (rintro rfl; revert h; decide)

theorem isAuthorityByte_cases (c : Char) (h : isAuthorityByte c = true) :
    (isLetter c || isDigit c) = true ∨ c = '-' ∨ c = '.' ∨ c = ':' := by
  simp only [isAuthorityByte, isHostnameByte, Bool.or_eq_true, decide_eq_true_eq] at h
  simp only [Bool.or_eq_true]
  tauto

theorem isAuthorityByte_not_ctl (c : Char) (h : isAuthorityByte c = true) :
    (decide (c.toNat < 32) || decide (c.toNat = 127)) = false := by
  rcases isAuthorityByte_cases c h with h | rfl | rfl | rfl
  · simp only [isLetter, isDigit, Bool.or_eq_true, decide_eq_true_eq] at h
    simp only [Bool.or_eq_false_iff, decide_eq_false_iff_not]
    omega
  · decide
  · decide
  · decide

theorem isAuthorityByte_no_escape (c : Char) (h : isAuthorityByte c = true) :
    url.shouldEscapeHost c = false := by
  rcases isAuthorityByte_cases c h with h | rfl | rfl | rfl
  · simp [url.shouldEscapeHost, h]
  · decide
  · decide
  · decide

/-! ## Facts about `net/url` on plain authorities -/

theorem not_mem_of_all (a : GoString) (p : Char → Bool) (x : Char) (ha : a.all p = true)
    (hx : p x = false) : x ∉ a := by
  intro hmem
  have := List.all_eq_true.1 ha x hmem
  rw [hx] at this
  cases this

theorem authority_not_mem (a : GoString) (ha : a.all isAuthorityByte = true) :
    '#' ∉ a ∧ '?' ∉ a ∧ '/' ∉ a ∧ '@' ∉ a ∧ '%' ∉ a ∧ '+' ∉ a ∧ '[' ∉ a :=
  ⟨not_mem_of_all a _ _ ha (by decide), not_mem_of_all a _ _ ha (by decide),
    not_mem_of_all a _ _ ha (by decide), not_mem_of_all a _ _ ha (by decide),
    not_mem_of_all a _ _ ha (by decide), not_mem_of_all a _ _ ha (by decide),
    not_mem_of_all a _ _ ha (by decide)⟩

theorem url.unescapeCheck_cons (mode : url.Encoding) (c : Char) (cs : GoString) (h : c ≠ '%') :
    url.unescapeCheck mode (c :: cs) =
      if c = '+' then url.unescapeCheck mode cs
      else if (mode = .encodeHost ∨ mode = .encodeZone) ∧ c.toNat < 128 ∧
          url.shouldEscapeHost c then .error (.invalidHostError [c])
      else url.unescapeCheck mode cs := by
  rcases cs with _ | ⟨a, _ | ⟨b, rest⟩⟩ <;> simp [url.unescapeCheck, h]

theorem url.unescapeDecode_cons (mode : url.Encoding) (c : Char) (cs : GoString) (h : c ≠ '%') :
    url.unescapeDecode mode (c :: cs) =
      if c = '+' then
        (if mode = .encodeQueryComponent then ' ' else '+') :: url.unescapeDecode mode cs
      else c :: url.unescapeDecode mode cs := by
  rcases cs with _ | ⟨a, _ | ⟨b, rest⟩⟩ <;> simp [url.unescapeDecode, h]

theorem url.unescapeCheck_authority (a : GoString) (ha : a.all isAuthorityByte = true) :
    url.unescapeCheck .encodeHost a = .ok () := by
  induction a with
  | nil => rfl
  | cons c cs ih =>
    simp only [List.all_cons, Bool.and_eq_true] at ha
    obtain ⟨_, _, _, _, h5, h6, _⟩ := isAuthorityByte_ne c ha.1
    have h7 := isAuthorityByte_no_escape c ha.1
    rw [url.unescapeCheck_cons _ _ _ h5]
    simp [h6, h7, ih ha.2]

theorem url.unescapeDecode_authority (a : GoString) (ha : a.all isAuthorityByte = true) :
    url.unescapeDecode .encodeHost a = a := by
  induction a with
  | nil => rfl
  | cons c cs ih =>
    simp only [List.all_cons, Bool.and_eq_true] at ha
    obtain ⟨_, _, _, _, h5, h6, _⟩ := isAuthorityByte_ne c ha.1
    rw [url.unescapeDecode_cons _ _ _ h5]
    simp [h6, ih ha.2]

theorem url.unescape_authority (a : GoString) (ha : a.all isAuthorityByte = true) :
    url.unescape a .encodeHost = .ok a := by
  simp [url.unescape, url.unescapeCheck_authority a ha, url.unescapeDecode_authority a ha]

theorem startsWith_bracket_false (a : GoString) (ha : '[' ∉ a) :
    strings.startsWith a ['['] = false := by
  cases a with
  | nil => rfl
  | cons c cs =>
    have : c ≠ '[' := fun h => ha (by simp [h])
    simp [strings.startsWith, List.isPrefixOf, Ne.symm this]

theorem all_hostname_authority (h : GoString) (hh : h.all isHostnameByte = true) :
    h.all isAuthorityByte = true :=
  List.all_eq_true.2 fun c hc => isHostnameByte_authority c (List.all_eq_true.1 hh c hc)

theorem all_digit_authority (p : GoString) (hp : p.all isDigit = true) :
    p.all isAuthorityByte = true :=
  List.all_eq_true.2 fun c hc => isDigit_authority c (List.all_eq_true.1 hp c hc)

theorem host_port_authority (h p : GoString) (hh : h.all isHostnameByte = true)
    (hp : p.all isDigit = true) : (h ++ ':' :: p).all isAuthorityByte = true := by
  simp only [List.all_append, List.all_cons, Bool.and_eq_true]
  exact ⟨all_hostname_authority h hh, by decide, all_digit_authority p hp⟩

theorem colon_not_mem_hostname (h : GoString) (hh : h.all isHostnameByte = true) : ':' ∉ h :=
  not_mem_of_all h _ _ hh (by decide)

theorem colon_not_mem_digits (p : GoString) (hp : p.all isDigit = true) : ':' ∉ p :=
  not_mem_of_all p _ _ hp (by decide)

/-- `parseHost` accepts a plain host name as it is. -/
theorem url.parseHost_hostname (h : GoString) (hh : h.all isHostnameByte = true) :
    url.parseHost h = .ok h := by
  have ha := all_hostname_authority h hh
  have hb := startsWith_bracket_false h (authority_not_mem h ha).2.2.2.2.2.2
  have hc := strings.findLastSub_none [':'] h ':' (by simp) (colon_not_mem_hostname h hh)
  simp [url.parseHost, hb, hc, url.unescape_authority h ha]

/-- `parseHost` accepts a plain host name followed by a colon and digits as it is. -/
theorem url.parseHost_host_port (h p : GoString) (hh : h.all isHostnameByte = true)
    (hp : p.all isDigit = true) : url.parseHost (h ++ ':' :: p) = .ok (h ++ ':' :: p) := by
  have ha := host_port_authority h p hh hp
  have hb := startsWith_bracket_false _ (authority_not_mem _ ha).2.2.2.2.2.2
  have hc := strings.findLastSub_append h p ':' (colon_not_mem_digits p hp)
  simp [url.parseHost, hb, hc, url.unescape_authority _ ha, url.validOptionalPort, hp]

theorem url.parseRest_authority (s a : GoString) (hs : s ≠ [])
    (ha : a.all isAuthorityByte = true) (hhost : url.parseHost a = .ok a) :
    url.parseRest s ('/' :: '/' :: a) [] false = .ok { Scheme := s, Host := a } := by
  obtain ⟨_, _, h3, h4, _, _, _⟩ := authority_not_mem a ha
  have hslash := strings.findSub_none ['/'] a '/' (by simp) h3
  have hat := strings.findLastSub_none ['@'] a '@' (by simp) h4
  have hpath : url.unescape [] .encodePath = .ok [] := rfl
  simp [url.parseRest, strings.startsWith, List.isPrefixOf, hs, hslash, url.parseAuthority, hat,
    hhost, hpath]

theorem url.parse_authority (s a : GoString) (hs : s ≠ [])
    (hget : ∀ rest, url.getScheme (s ++ ':' :: rest) = .ok (s, rest))
    (hlow : strings.ToLower s = s) (hctl : url.stringContainsCTLByte s = false)
    (ha : a.all isAuthorityByte = true) (hhost : url.parseHost a = .ok a) :
    url.parse (s ++ "://".toList ++ a) = .ok { Scheme := s, Host := a } := by
  obtain ⟨_, h2, _, _, _, _, _⟩ := authority_not_mem a ha
  have hactl : url.stringContainsCTLByte a = false := by
    unfold url.stringContainsCTLByte
    rw [List.any_eq_false]
    intro c hc
    simpa using isAuthorityByte_not_ctl c (List.all_eq_true.1 ha c hc)
  have hraw : s ++ "://".toList ++ a = s ++ ':' :: ('/' :: '/' :: a) := by
    simp [String.toList]
  have hctl' : url.stringContainsCTLByte (s ++ ':' :: ('/' :: '/' :: a)) = false := by
    unfold url.stringContainsCTLByte at hctl hactl ⊢
    rw [List.any_append, hctl, List.any_cons, List.any_cons, List.any_cons, hactl]
    decide
  have hstar : s ++ ':' :: ('/' :: '/' :: a) ≠ ['*'] := by
    intro h
    have := congrArg List.length h
    simp at this
    omega
  have hq : '?' ∉ ('/' :: '/' :: a) := by simp [h2]
  have hcount : strings.Count ('/' :: '/' :: a) '?' = 0 := List.count_eq_zero.2 hq
  have hcut := strings.Cut_none _ '?' hq
  rw [hraw, url.parse]
  simp only [hctl', hstar, hget, hcount, hcut, hlow]
  simpa using url.parseRest_authority s a hs ha hhost

/-- `url.Parse` of an accepted scheme, `://` and a plain authority on which
`parseHost` succeeds: the scheme and the authority as host, nothing else. -/
theorem url.Parse_authority (s a : GoString) (hs : acceptedScheme s = true)
    (ha : a.all isAuthorityByte = true) (hhost : url.parseHost a = .ok a) :
    url.Parse (s ++ "://".toList ++ a) = .ok { Scheme := s, Host := a } := by
  obtain ⟨h1, _, _, _, _, _, _⟩ := authority_not_mem a ha
  have hfacts : s ≠ [] ∧ (∀ rest, url.getScheme (s ++ ':' :: rest) = .ok (s, rest)) ∧
      strings.ToLower s = s ∧ url.stringContainsCTLByte s = false ∧ '#' ∉ s := by
    simp only [acceptedScheme, Bool.or_eq_true, decide_eq_true_eq] at hs
    rcases hs with (rfl | rfl) | rfl
    · exact ⟨by decide, fun _ => rfl, by decide, by decide, by decide⟩
    · exact ⟨by decide, fun _ => rfl, by decide, by decide, by decide⟩
    · exact ⟨by decide, fun _ => rfl, by decide, by decide, by decide⟩
  obtain ⟨hne, hget, hlow, hctl, hhash⟩ := hfacts
  have hnh : '#' ∉ s ++ "://".toList ++ a := by
    simp only [List.mem_append, not_or]
    exact ⟨⟨hhash, by decide⟩, h1⟩
  have hcut := strings.Cut_none _ '#' hnh
  rw [url.Parse, hcut, url.parse_authority s a hne hget hlow hctl ha hhost]
  rfl

theorem url.splitHostPort_hostname (h : GoString) (hh : h.all isHostnameByte = true) :
    url.splitHostPort h = (h, []) := by
  have ha := all_hostname_authority h hh
  have hb := startsWith_bracket_false h (authority_not_mem h ha).2.2.2.2.2.2
  have hc := strings.findLastSub_none [':'] h ':' (by simp) (colon_not_mem_hostname h hh)
  simp [url.splitHostPort, hb, hc]

theorem url.splitHostPort_host_port (h p : GoString) (hh : h.all isHostnameByte = true)
    (hp : p.all isDigit = true) : url.splitHostPort (h ++ ':' :: p) = (h, p) := by
  have ha := all_hostname_authority h hh
  have hb := startsWith_bracket_false h (authority_not_mem h ha).2.2.2.2.2.2
  have hc := strings.findLastSub_append h p ':' (colon_not_mem_digits p hp)
  simp [url.splitHostPort, hb, hc, url.validOptionalPort, hp]

/-! ## Target resolution: claims C2 to C4 -/

theorem strconv.Atoi_digits (p : GoString) (hne : p ≠ []) (hp : p.all isDigit = true)
    (hv : strconv.digitsValue p < 2 ^ 63) : strconv.Atoi p = some (strconv.digitsValue p : Int) := by
  cases p with
  | nil => exact absurd rfl hne
  | cons c cs =>
    have hc : isDigit c = true := by
      simp only [List.all_cons, Bool.and_eq_true] at hp
      exact hp.1
    have h1 : c ≠ '-' := by rintro rfl; revert hc; decide
    have h2 : c ≠ '+' := by rintro rfl; revert hc; decide
    have hv' : ((strconv.digitsValue (c :: cs) : Nat) : Int) < 2 ^ 63 := by exact_mod_cast hv
    simp only [strconv.Atoi, h1, h2, or_self, if_false, hp, List.isEmpty_cons, Bool.not_true,
      Bool.or_self, Bool.false_eq_true, hv', if_true]

theorem toUint_natCast (n : Nat) (h : n < 2 ^ 63) : toUint (n : Int) = n := by
  unfold toUint
  have : ((n : Int) % 2 ^ 64) = n := Int.emod_eq_of_lt (by omega) (by omega)
  rw [this]; simp

/-- What `extractTarget` returns when `url.Parse` yields a scheme and a plain
`host:port` authority whose port fits an `int`. -/
theorem extractTarget_of_host_port (raw s h p : GoString)
    (hparse : url.Parse (withDefaults raw) = .ok { Scheme := s, Host := h ++ ':' :: p })
    (hh : h.all isHostnameByte = true) (hne : p ≠ []) (hp : p.all isDigit = true)
    (hv : strconv.digitsValue p < 2 ^ 63) :
    ∃ wh, extractTarget raw = .ok wh ∧ wh.Scheme = s ∧ wh.Host = h ∧
      wh.Port = strconv.digitsValue p := by
  have hsplit := url.splitHostPort_host_port h p hh hp
  simp only [extractTarget, hparse, url.URL.Port, url.URL.Hostname, hsplit,
    strconv.Atoi_digits p hne hp hv]
  exact ⟨_, rfl, rfl, rfl, toUint_natCast _ hv⟩

/-- What `extractTarget` returns when `url.Parse` yields a scheme and a plain
host without a port. -/
theorem extractTarget_of_hostname (raw s h : GoString)
    (hparse : url.Parse (withDefaults raw) = .ok { Scheme := s, Host := h })
    (hh : h.all isHostnameByte = true) :
    ∃ wh, extractTarget raw = .ok wh ∧ wh.Scheme = s ∧ wh.Host = h ∧ wh.Port = portMap s := by
  have hsplit := url.splitHostPort_hostname h hh
  have hatoi : strconv.Atoi [] = none := rfl
  simp only [extractTarget, hparse, url.URL.Port, url.URL.Hostname, hsplit, hatoi]
  exact ⟨_, rfl, rfl, rfl, rfl⟩

theorem withDefaults_host_port (h p : GoString) (hne : h ≠ [])
    (hh : h.all isHostnameByte = true) (hp : p.all isDigit = true) :
    strings.Index (h ++ ':' :: p) ":".toList ≠ 0 ∧
      strings.Index (h ++ ':' :: p) "://".toList = -1 ∧
      withDefaults (h ++ ':' :: p) = DefaultScheme ++ "://".toList ++ (h ++ ':' :: p) := by
  have ha := host_port_authority h p hh hp
  have hslash := (authority_not_mem _ ha).2.2.1
  have h1 : strings.Index (h ++ ':' :: p) "://".toList = -1 :=
    strings.Index_none _ _ '/' (by decide) hslash
  have h2 : strings.Index (h ++ ':' :: p) ":".toList ≠ 0 := by
    have hlen : h.length ≠ 0 := by simpa using hne
    have : strings.findSub [':'] (h ++ ':' :: p) = some h.length :=
      strings.findSub_append h p ':' (colon_not_mem_hostname h hh)
    show strings.Index (h ++ ':' :: p) [':'] ≠ 0
    simp only [strings.Index, this]
    exact_mod_cast hlen
  refine ⟨h2, h1, ?_⟩
  simp only [withDefaults, h1, h2, false_and, if_false, if_true]

theorem withDefaults_port (p : GoString) (hp : p.all isDigit = true) :
    strings.Index (':' :: p) ":".toList = 0 ∧ strings.Index (':' :: p) "://".toList = -1 ∧
      withDefaults (':' :: p) = DefaultScheme ++ "://".toList ++ (DefaultHost ++ ':' :: p) := by
  have ha := all_digit_authority p hp
  have hslash : '/' ∉ ':' :: p := by
    simp only [List.mem_cons, not_or]
    exact ⟨by decide, (authority_not_mem _ ha).2.2.1⟩
  have hslash' : '/' ∉ DefaultHost ++ ':' :: p := by
    simp only [List.mem_append, not_or]
    exact ⟨by decide, hslash⟩
  have h1 : strings.Index (':' :: p) "://".toList = -1 :=
    strings.Index_none _ _ '/' (by decide) hslash
  have h2 : strings.Index (':' :: p) ":".toList = 0 := by
    show strings.Index (':' :: p) [':'] = 0
    simp [strings.Index, strings.findSub, List.isPrefixOf]
  have h3 : strings.Index (DefaultHost ++ ':' :: p) "://".toList = -1 :=
    strings.Index_none _ _ '/' (by decide) hslash'
  refine ⟨h2, h1, ?_⟩
  simp only [withDefaults, h1, h2, h3, and_self, if_true]

theorem DefaultHost_hostname : DefaultHost.all isHostnameByte = true := by decide

/-- C2, as the code has it: for every raw string `host:port` whose host is a
non-empty plain host name (letters, digits, `-`, `.`) and whose port is a
non-empty string of decimal digits with a value below 2^63, the range of Go's
`int`, the string does not begin with `:` and contains no `://`, and
`extractTarget` returns no error and a target with `Scheme = DefaultScheme`,
`Host` the given host and `Port` the given port. -/
theorem extractTarget_host_port (h p : GoString) (hne : h ≠ [])
    (hh : h.all isHostnameByte = true) (hpne : p ≠ []) (hp : p.all isDigit = true)
    (hv : strconv.digitsValue p < 2 ^ 63) :
    strings.Index (h ++ ':' :: p) ":".toList ≠ 0 ∧
      strings.Index (h ++ ':' :: p) "://".toList = -1 ∧
      ∃ wh, extractTarget (h ++ ':' :: p) = .ok wh ∧ wh.Scheme = DefaultScheme ∧ wh.Host = h ∧
        wh.Port = strconv.digitsValue p := by
  obtain ⟨h1, h2, h3⟩ := withDefaults_host_port h p hne hh hp
  refine ⟨h1, h2, extractTarget_of_host_port _ DefaultScheme h p ?_ hh hpne hp hv⟩
  rw [h3]
  exact url.Parse_authority DefaultScheme _ (by decide) (host_port_authority h p hh hp)
    (url.parseHost_host_port h p hh hp)

/-- C2 at the raw string `127.0.0.1:1123`. -/
theorem extractTarget_host_port_witness :
    strings.Index ("127.0.0.1".toList ++ ':' :: "1123".toList) ":".toList ≠ 0 ∧
      strings.Index ("127.0.0.1".toList ++ ':' :: "1123".toList) "://".toList = -1 ∧
      ∃ wh, extractTarget ("127.0.0.1".toList ++ ':' :: "1123".toList) = .ok wh ∧
        wh.Scheme = DefaultScheme ∧ wh.Host = "127.0.0.1".toList ∧
        wh.Port = strconv.digitsValue "1123".toList :=
  extractTarget_host_port "127.0.0.1".toList "1123".toList (by decide) (by decide) (by decide)
    (by decide) (by decide)

/-- C2 fails as stated: in the raw string `localhost:9223372036854775808` the
port is a decimal number, 2^63, which fits `uint`; `Atoi` rejects it and
`extractTarget` returns a target with `Port = 0`, the value the port table has
for `tcp`. -/
theorem extractTarget_host_port_overflow :
    strconv.digitsValue "9223372036854775808".toList = 2 ^ 63 ∧
      extractTarget ("localhost".toList ++ ':' :: "9223372036854775808".toList) =
        .ok (resolvedTarget DefaultScheme "localhost".toList 0) ∧
      (0 : Nat) ≠ 2 ^ 63 := by
  refine ⟨by decide, rfl, by decide⟩

/-- C3, as the code has it: for every raw string that is `:` followed by a
non-empty string of decimal digits with a value below 2^63, the range of Go's
`int`, the string begins with `:` and contains no `://`, and `extractTarget`
returns no error and a target with `Host = DefaultHost`,
`Scheme = DefaultScheme` and `Port` the given port. -/
theorem extractTarget_port_only (p : GoString) (hpne : p ≠ []) (hp : p.all isDigit = true)
    (hv : strconv.digitsValue p < 2 ^ 63) :
    strings.Index (':' :: p) ":".toList = 0 ∧ strings.Index (':' :: p) "://".toList = -1 ∧
      ∃ wh, extractTarget (':' :: p) = .ok wh ∧ wh.Host = DefaultHost ∧
        wh.Scheme = DefaultScheme ∧ wh.Port = strconv.digitsValue p := by
  obtain ⟨h1, h2, h3⟩ := withDefaults_port p hp
  have hparse : url.Parse (withDefaults (':' :: p)) =
      .ok { Scheme := DefaultScheme, Host := DefaultHost ++ ':' :: p } := by
    rw [h3]
    exact url.Parse_authority DefaultScheme _ (by decide)
      (host_port_authority DefaultHost p DefaultHost_hostname hp)
      (url.parseHost_host_port DefaultHost p DefaultHost_hostname hp)
  obtain ⟨wh, hw, hs, hhost, hport⟩ :=
    extractTarget_of_host_port _ DefaultScheme DefaultHost p hparse DefaultHost_hostname hpne hp hv
  exact ⟨h1, h2, wh, hw, hhost, hs, hport⟩

/-- C3 at the raw string `:1123`. -/
theorem extractTarget_port_only_witness :
    strings.Index (':' :: "1123".toList) ":".toList = 0 ∧
      strings.Index (':' :: "1123".toList) "://".toList = -1 ∧
      ∃ wh, extractTarget (':' :: "1123".toList) = .ok wh ∧ wh.Host = DefaultHost ∧
        wh.Scheme = DefaultScheme ∧ wh.Port = strconv.digitsValue "1123".toList :=
  extractTarget_port_only "1123".toList (by decide) (by decide) (by decide)

/-- C3 fails as stated: in the raw string `:9223372036854775808` the port is a
decimal number, 2^63, which fits `uint`; `Atoi` rejects it and `extractTarget`
returns a target with the default host and scheme but `Port = 0`. -/
theorem extractTarget_port_only_overflow :
    strconv.digitsValue "9223372036854775808".toList = 2 ^ 63 ∧
      extractTarget (':' :: "9223372036854775808".toList) =
        .ok (resolvedTarget DefaultScheme DefaultHost 0) ∧
      (0 : Nat) ≠ 2 ^ 63 := by
  refine ⟨by decide, rfl, by decide⟩

/-- C4: for every plain host name `h` (letters, digits, `-`, `.`),
`extractTarget("http://" + h)` returns a target with `Scheme = "http"`,
`Host = h` and `Port = 80`, and `extractTarget("https://" + h)` one with
`Scheme = "https"`, `Host = h` and `Port = 443`. -/
theorem extractTarget_http_default_port (h : GoString) (hh : h.all isHostnameByte = true) :
    (∃ wh, extractTarget ("http://".toList ++ h) = .ok wh ∧ wh.Scheme = "http".toList ∧
        wh.Host = h ∧ wh.Port = 80) ∧
    (∃ wh, extractTarget ("https://".toList ++ h) = .ok wh ∧ wh.Scheme = "https".toList ∧
        wh.Host = h ∧ wh.Port = 443) := by
  have ha := all_hostname_authority h hh
  have hhost := url.parseHost_hostname h hh
  have e3 : "://".toList = [':', '/', '/'] := rfl
  have e4 : ":".toList = [':'] := rfl
  have hd1 : withDefaults ("http://".toList ++ h) = "http".toList ++ "://".toList ++ h := by
    have e1 : "http://".toList ++ h = 'h' :: 't' :: 't' :: 'p' :: ':' :: '/' :: '/' :: h := rfl
    have e2 : "http".toList ++ "://".toList ++ h =
        'h' :: 't' :: 't' :: 'p' :: ':' :: '/' :: '/' :: h := rfl
    rw [e1, e2]
    simp [withDefaults, e3, e4, strings.Index, strings.findSub, List.isPrefixOf]
  have hd2 : withDefaults ("https://".toList ++ h) = "https".toList ++ "://".toList ++ h := by
    have e1 : "https://".toList ++ h =
        'h' :: 't' :: 't' :: 'p' :: 's' :: ':' :: '/' :: '/' :: h := rfl
    have e2 : "https".toList ++ "://".toList ++ h =
        'h' :: 't' :: 't' :: 'p' :: 's' :: ':' :: '/' :: '/' :: h := rfl
    rw [e1, e2]
    simp [withDefaults, e3, e4, strings.Index, strings.findSub, List.isPrefixOf]
  constructor
  · apply extractTarget_of_hostname _ "http".toList h _ hh
    rw [hd1]
    exact url.Parse_authority _ _ (by decide) ha hhost
  · apply extractTarget_of_hostname _ "https".toList h _ hh
    rw [hd2]
    exact url.Parse_authority _ _ (by decide) ha hhost

/-- C4 at the host `goland.org`. -/
theorem extractTarget_http_default_port_witness :
    (∃ wh, extractTarget ("http://".toList ++ "goland.org".toList) = .ok wh ∧
        wh.Scheme = "http".toList ∧ wh.Host = "goland.org".toList ∧ wh.Port = 80) ∧
    (∃ wh, extractTarget ("https://".toList ++ "goland.org".toList) = .ok wh ∧
        wh.Scheme = "https".toList ∧ wh.Host = "goland.org".toList ∧ wh.Port = 443) :=
  extractTarget_http_default_port "goland.org".toList (by decide)

/-! ## Validation and the error kinds: claims C1 and C5 -/

theorem isDigit_ofNat (k : Nat) (hk : k < 10) : isDigit (Char.ofNat (48 + k)) = true := by
  interval_cases k <;> decide

theorem decimalRev_digits (fuel n : Nat) : (decimalRev fuel n).all isDigit = true := by
  induction fuel generalizing n with
  | zero => rfl
  | succ fuel ih =>
    unfold decimalRev
    split
    · rename_i h
      simp [isDigit_ofNat n h]
    · simp [isDigit_ofNat (n % 10) (Nat.mod_lt _ (by decide)), ih]

theorem formatUint_digits (n : Nat) : (formatUint n).all isDigit = true := by
  unfold formatUint
  rw [List.all_reverse]
  exact decimalRev_digits _ _

/-- The reconstructed address of a target with an accepted scheme and an empty host parses. -/
theorem Parse_targetString_empty_host (wh : WaitHost) (hs : acceptedScheme wh.Scheme = true)
    (hh : wh.Host = []) : ∃ u, url.Parse (targetString wh) = .ok u := by
  have hp := formatUint_digits wh.Port
  have : targetString wh = wh.Scheme ++ "://".toList ++ ([] ++ ':' :: formatUint wh.Port) := by
    simp [targetString, hh, String.toList]
  rw [this]
  exact ⟨_, url.Parse_authority _ _ hs (host_port_authority [] _ rfl hp)
    (url.parseHost_host_port [] _ rfl hp)⟩

/-- The checks of `validateTarget`, in their order. -/
theorem validateTarget_cases (wh : WaitHost) :
    (∀ err, url.Parse (targetString wh) = .error err →
      validateTarget wh = (wh, some (.urlError err))) ∧
    ((∃ u, url.Parse (targetString wh) = .ok u) →
      (acceptedScheme wh.Scheme = false →
        validateTarget wh = (wh, some (.waitHost ⟨.BAD_SCHEME⟩))) ∧
      (acceptedScheme wh.Scheme = true → wh.Host = [] →
        validateTarget wh = (wh, some (.waitHost ⟨.BAD_HOST⟩))) ∧
      (acceptedScheme wh.Scheme = true → wh.Host ≠ [] → wh.Port = 0 →
        validateTarget wh = (wh, some (.waitHost ⟨.BAD_PORT⟩))) ∧
      (acceptedScheme wh.Scheme = true → wh.Host ≠ [] → wh.Port ≠ 0 →
        (validateTarget wh).2 = none ∧ (validateTarget wh).1.Scheme = wh.Scheme)) := by
  constructor
  · intro err h
    simp [validateTarget, h]
  · rintro ⟨u, hu⟩
    refine ⟨?_, ?_, ?_, ?_⟩
    · intro h
      simp [validateTarget, hu, h]
    · intro h hh
      have hne : wh.Scheme ≠ [] := by rintro h0; rw [h0] at h; revert h; decide
      simp [validateTarget, hu, h, hh, hne]
    · intro h hh hp
      have hne : wh.Scheme ≠ [] := by rintro h0; rw [h0] at h; revert h; decide
      simp [validateTarget, hu, h, hh, hne, hp]
    · intro h hh hp
      have hne : wh.Scheme ≠ [] := by rintro h0; rw [h0] at h; revert h; decide
      by_cases hc : wh.ConnectTimeout = 0 <;> simp [validateTarget, hu, h, hh, hne, hp, hc]

/-- What `validateTarget` can return: a parse error or one of three kinds; and
`nil` only for an accepted scheme, which it leaves as it is. -/
theorem validateTarget_result (wh : WaitHost) :
    ((validateTarget wh).2 = none ∧ acceptedScheme (validateTarget wh).1.Scheme = true) ∨
    (∃ err, (validateTarget wh).2 = some (.urlError err)) ∨
    (∃ code, (validateTarget wh).2 = some (.waitHost ⟨code⟩) ∧
      (code = .BAD_SCHEME ∨ code = .BAD_HOST ∨ code = .BAD_PORT)) := by
  obtain ⟨h1, h2⟩ := validateTarget_cases wh
  cases hp : url.Parse (targetString wh) with
  | error err => exact Or.inr (Or.inl ⟨err, by rw [h1 err hp]⟩)
  | ok u =>
    obtain ⟨ha, hb, hc, hd⟩ := h2 ⟨u, hp⟩
    cases hs : acceptedScheme wh.Scheme with
    | false => exact Or.inr (Or.inr ⟨_, by rw [ha hs], Or.inl rfl⟩)
    | true =>
      by_cases hh : wh.Host = []
      · exact Or.inr (Or.inr ⟨_, by rw [hb hs hh], Or.inr (Or.inl rfl)⟩)
      · by_cases hport : wh.Port = 0
        · exact Or.inr (Or.inr ⟨_, by rw [hc hs hh hport], Or.inr (Or.inr rfl)⟩)
        · obtain ⟨h3, h4⟩ := hd hs hh hport
          exact Or.inl ⟨h3, by rw [h4]; exact hs⟩

/-- With an empty `Scheme` the address `validateTarget` rebuilds begins with
`:`, which `url.Parse` never accepts: the call returns a parse error, so the
test `len(wh.Scheme) == 0` that follows is never reached with an empty scheme. -/
theorem validateTarget_empty_scheme_parse_error (wh : WaitHost) (hs : wh.Scheme = []) :
    ∃ err, validateTarget wh = (wh, some (.urlError err)) := by
  have hraw : targetString wh = ':' :: ('/' :: '/' :: (wh.Host ++ ':' :: formatUint wh.Port)) := by
    simp [targetString, hs, String.toList]
  have hcut : ∃ rest, (strings.Cut (targetString wh) ['#']).1 = ':' :: rest := by
    rw [hraw]
    unfold strings.Cut
    cases hf : strings.findSub ['#'] (':' :: ('/' :: '/' :: (wh.Host ++ ':' :: formatUint wh.Port))) with
    | none => exact ⟨_, rfl⟩
    | some i =>
      cases i with
      | zero => simp [strings.findSub, List.isPrefixOf] at hf
      | succ i => exact ⟨_, rfl⟩
  obtain ⟨rest, hrest⟩ := hcut
  have hparse : ∃ err, url.parse (':' :: rest) = .error err := by
    unfold url.parse
    split
    · exact ⟨_, rfl⟩
    · split
      · rename_i h; cases h
      · refine ⟨.missingProtocolScheme, ?_⟩
        have : url.getScheme (':' :: rest) = .error .missingProtocolScheme := by
          simp [url.getScheme, url.getSchemeFrom, isLetter, isDigit]
        simp [this]
  obtain ⟨err, herr⟩ := hparse
  have hP : url.Parse (targetString wh) = .error err := by
    simp [url.Parse, hrest, herr]
  exact ⟨err, (validateTarget_cases wh).1 err hP⟩

/-- C1 fails on the code: for a target with an empty scheme (host `localhost`,
port 1123) `validateTarget` returns the parse error `missing protocol scheme`
of the address `://localhost:1123`, not the BAD_SCHEME error; the same happens
on the target that the raw string `/path://x` resolves to, so `Wait` on it
returns that parse error. -/
theorem validateTarget_empty_scheme :
    emptySchemeTarget.Scheme = [] ∧
      validateTarget emptySchemeTarget =
        (emptySchemeTarget, some (.urlError .missingProtocolScheme)) ∧
      (validateTarget emptySchemeTarget).2 ≠ some (.waitHost ⟨.BAD_SCHEME⟩) ∧
      extractTarget "/path://x".toList = .ok (resolvedTarget [] [] 0) ∧
      Wait worldRefusing "/path://x".toList 3 Run.init =
        some (.returned (some (.urlError .missingProtocolScheme)), Run.init) := by
  refine ⟨rfl, rfl, by decide, rfl, rfl⟩

theorem checkFunc_accepted (s : GoString) (hs : acceptedScheme s = true) :
    checkFunc s = some checkTcp ∨ checkFunc s = some checkHttp ∨ checkFunc s = some checkHttps := by
  simp only [acceptedScheme, Bool.or_eq_true, decide_eq_true_eq] at hs
  rcases hs with (rfl | rfl) | rfl
  · exact Or.inl rfl
  · exact Or.inr (Or.inl rfl)
  · exact Or.inr (Or.inr rfl)

theorem checkFunc_result (w : World) (hdial : DialContract w) (s : GoString)
    (hs : acceptedScheme s = true) :
    ∃ f, checkFunc s = some f ∧ ∀ wh fuel r e r', f w wh fuel r = some (e, r') →
      e = none ∨ e = some (.waitHost ⟨.TIMEOUT⟩) := by
  rcases checkFunc_accepted s hs with h | h | h
  · refine ⟨_, h, fun wh fuel r e r' hc => ?_⟩
    rcases check_exit w wh _ _ hdial fuel r e r' hc with h | h
    · exact Or.inl h.1
    · exact Or.inr h
  · refine ⟨_, h, fun wh fuel r e r' hc => ?_⟩
    rcases check_exit w wh _ _ hdial fuel r e r' hc with h | h
    · exact Or.inl h.1
    · exact Or.inr h
  · refine ⟨_, h, fun wh fuel r e r' hc => ?_⟩
    rcases check_exit w wh _ _ hdial fuel r e r' hc with h | h
    · exact Or.inl h.1
    · exact Or.inr h

/-- `(*WaitHost).Wait` never panics and ends with one of the expected values. -/
theorem WaitHost.Wait_expected (w : World) (hdial : DialContract w) (wh : WaitHost) (fuel : Nat)
    (r : Run) (x : Exit) (wh' : WaitHost) (r' : Run)
    (h : wh.Wait w fuel r = some (x, wh', r')) : x.expected := by
  unfold WaitHost.Wait at h
  rcases validateTarget_result wh with ⟨hv, hs⟩ | ⟨err, hv⟩ | ⟨code, hv, hcode⟩
  · obtain ⟨f, hf, hres⟩ := checkFunc_result w hdial _ hs
    rcases hvt : validateTarget wh with ⟨wh1, oe⟩
    rw [hvt] at hv hs hf h
    simp only at hv hf
    subst hv
    simp only [hf] at h
    cases hc : f w wh1 fuel r with
    | none => simp [hc] at h
    | some p =>
      obtain ⟨e, r1⟩ := p
      simp only [hc, Option.some.injEq, Prod.mk.injEq] at h
      obtain ⟨rfl, _, _⟩ := h
      rcases hres wh1 fuel r e r1 hc with rfl | rfl
      · exact Or.inl rfl
      · exact Or.inr (Or.inr ⟨_, rfl, Or.inl rfl⟩)
  · rcases hvt : validateTarget wh with ⟨wh1, oe⟩
    rw [hvt] at hv h
    simp only at hv
    subst hv
    simp only [Option.some.injEq, Prod.mk.injEq] at h
    obtain ⟨rfl, _, _⟩ := h
    exact Or.inr (Or.inl ⟨err, rfl⟩)
  · rcases hvt : validateTarget wh with ⟨wh1, oe⟩
    rw [hvt] at hv h
    simp only at hv
    subst hv
    simp only [Option.some.injEq, Prod.mk.injEq] at h
    obtain ⟨rfl, _, _⟩ := h
    exact Or.inr (Or.inr ⟨code, rfl, Or.inr hcode⟩)

/-- C5, as the code has it: on every raw string on which the URI parse fails,
`New` and `Wait` return the error of `url.Parse` itself, which is not a
`WaitHostError` (no path of the package produces the BAD_URL kind); and, with
`net.Dial` keeping its contract, `Wait(target)` and `(*WaitHost).Wait` never
panic and every error they return is either such a parse error or a
`WaitHostError` whose code is TIMEOUT, BAD_SCHEME, BAD_HOST or BAD_PORT. -/
theorem Wait_error_kinds (w : World) (hdial : DialContract w) :
    (∀ raw err, url.Parse (withDefaults raw) = .error err →
      New raw = .error (.urlError err) ∧
      ∀ fuel r, Wait w raw fuel r = some (.returned (some (.urlError err)), r)) ∧
    (∀ raw fuel r x r', Wait w raw fuel r = some (x, r') → x.expected) ∧
    (∀ (wh : WaitHost) fuel r x wh' r', wh.Wait w fuel r = some (x, wh', r') → x.expected) := by
  refine ⟨?_, ?_, fun wh fuel r x wh' r' h => WaitHost.Wait_expected w hdial wh fuel r x wh' r' h⟩
  · intro raw err h
    have hn : extractTarget raw = .error (.urlError err) := by simp [extractTarget, h]
    exact ⟨hn, fun fuel r => by simp [Wait, hn]⟩
  · intro raw fuel r x r' h
    unfold Wait at h
    cases he : extractTarget raw with
    | error err =>
      simp only [he, Option.some.injEq, Prod.mk.injEq] at h
      obtain ⟨rfl, _⟩ := h
      unfold extractTarget at he
      cases hp : url.Parse (withDefaults raw) with
      | error e =>
        simp only [hp, Except.error.injEq] at he
        exact Or.inr (Or.inl ⟨e, by rw [← he]⟩)
      | ok u =>
        simp only [hp] at he
        split at he <;> cases he
    | ok wh =>
      simp only [he] at h
      cases hw : wh.Wait w fuel r with
      | none => simp [hw] at h
      | some p =>
        obtain ⟨x1, wh1, r1⟩ := p
        simp only [hw, Option.some.injEq, Prod.mk.injEq] at h
        obtain ⟨rfl, _⟩ := h
        exact WaitHost.Wait_expected w hdial wh fuel r x1 wh1 r1 hw

/-- C5 in the world in which every dial is refused. -/
theorem Wait_error_kinds_witness :
    (∀ raw err, url.Parse (withDefaults raw) = .error err →
      New raw = .error (.urlError err) ∧
      ∀ fuel r, Wait worldRefusing raw fuel r = some (.returned (some (.urlError err)), r)) ∧
    (∀ raw fuel r x r', Wait worldRefusing raw fuel r = some (x, r') → x.expected) ∧
    (∀ (wh : WaitHost) fuel r x wh' r', wh.Wait worldRefusing fuel r = some (x, wh', r') →
      x.expected) :=
  Wait_error_kinds worldRefusing (fun _ _ => rfl)

/-- C5 fails as stated: on the raw string `tcp://host:port`, whose parse
fails on the port, `New` and `Wait` return the `invalid port` error of
`url.Parse`, not a `WaitHostError` of kind BAD_URL. -/
theorem New_parse_error_not_BAD_URL :
    url.Parse (withDefaults "tcp://host:port".toList) = .error (.invalidPort ":port".toList) ∧
      New "tcp://host:port".toList = .error (.urlError (.invalidPort ":port".toList)) ∧
      Wait worldRefusing "tcp://host:port".toList 1 Run.init =
        some (.returned (some (.urlError (.invalidPort ":port".toList))), Run.init) ∧
      GoError.urlError (.invalidPort ":port".toList) ≠ .waitHost ⟨.BAD_URL⟩ := by
  refine ⟨rfl, rfl, rfl, by decide⟩

/-! ## Validation before probing: claims C11 to C13 -/

/-- The three ways `validateTarget` ends: an error with the target untouched,
`nil` with the target untouched (its `ConnectTimeout` being non-zero), or `nil`
with a zero `ConnectTimeout` set to one second. -/
theorem validateTarget_shape (wh : WaitHost) :
    (∃ err, validateTarget wh = (wh, some err)) ∨
    (validateTarget wh = (wh, none) ∧ wh.ConnectTimeout ≠ 0 ∧
      acceptedScheme wh.Scheme = true ∧ wh.Host ≠ [] ∧ wh.Port ≠ 0) ∨
    (validateTarget wh = ({ wh with ConnectTimeout := 1 * Second }, none) ∧
      wh.ConnectTimeout = 0 ∧ acceptedScheme wh.Scheme = true ∧ wh.Host ≠ [] ∧ wh.Port ≠ 0) := by
  obtain ⟨h1, h2⟩ := validateTarget_cases wh
  cases hp : url.Parse (targetString wh) with
  | error err => exact Or.inl ⟨_, h1 err hp⟩
  | ok u =>
    obtain ⟨ha, hb, hc, _⟩ := h2 ⟨u, hp⟩
    cases hs : acceptedScheme wh.Scheme with
    | false => exact Or.inl ⟨_, ha hs⟩
    | true =>
      by_cases hh : wh.Host = []
      · exact Or.inl ⟨_, hb hs hh⟩
      · by_cases hport : wh.Port = 0
        · exact Or.inl ⟨_, hc hs hh hport⟩
        · have hne : wh.Scheme ≠ [] := by rintro h0; rw [h0] at hs; revert hs; decide
          by_cases hct : wh.ConnectTimeout = 0
          · refine Or.inr (Or.inr ⟨?_, hct, rfl, hh, hport⟩)
            simp [validateTarget, hp, hs, hh, hne, hport, hct]
          · refine Or.inr (Or.inl ⟨?_, hct, rfl, hh, hport⟩)
            simp [validateTarget, hp, hs, hh, hne, hport, hct]

/-- C11: whenever `validateTarget` returns an error, `(*WaitHost).Wait` returns
that error at once, whatever the bound on the loop, with the run as it was (no
dial attempt, no message, no clock reading) and the target untouched; hence a
call of `Wait` that made a dial attempt or emitted anything was on a target
whose `Scheme` is one of tcp/http/https, whose `Host` is non-empty and whose
`Port` is non-zero, and validation succeeds only on such targets. -/
theorem Wait_validates_first (w : World) (wh : WaitHost) :
    (∀ err, (validateTarget wh).2 = some err →
      ∀ fuel r, wh.Wait w fuel r = some (.returned (some err), wh, r)) ∧
    (∀ fuel r x wh' r', wh.Wait w fuel r = some (x, wh', r') →
      (r'.dials ≠ r.dials ∨ r'.trace ≠ r.trace) →
      acceptedScheme wh.Scheme = true ∧ wh.Host ≠ [] ∧ wh.Port ≠ 0) ∧
    ((validateTarget wh).2 = none →
      acceptedScheme wh.Scheme = true ∧ wh.Host ≠ [] ∧ wh.Port ≠ 0) := by
  rcases validateTarget_shape wh with ⟨e, hv⟩ | ⟨hv, _, h1, h2, h3⟩ | ⟨hv, _, h1, h2, h3⟩
  · refine ⟨?_, ?_, ?_⟩
    · intro err herr fuel r
      rw [hv] at herr
      simp only [Option.some.injEq] at herr
      subst herr
      simp [WaitHost.Wait, hv]
    · intro fuel r x wh' r' hw hchg
      simp only [WaitHost.Wait, hv, Option.some.injEq, Prod.mk.injEq] at hw
      obtain ⟨_, _, rfl⟩ := hw
      rcases hchg with h | h <;> exact absurd rfl h
    · intro hn
      rw [hv] at hn
      cases hn
  · exact ⟨fun err herr => (by rw [hv] at herr; cases herr), fun _ _ _ _ _ _ _ => ⟨h1, h2, h3⟩,
      fun _ => ⟨h1, h2, h3⟩⟩
  · exact ⟨fun err herr => (by rw [hv] at herr; cases herr), fun _ _ _ _ _ _ _ => ⟨h1, h2, h3⟩,
      fun _ => ⟨h1, h2, h3⟩⟩

/-- C11 on the target with an empty scheme: `Wait` returns the error of
`validateTarget` and the run is untouched. -/
theorem Wait_validates_first_witness :
    emptySchemeTarget.Wait worldRefusing 3 Run.init =
      some (.returned (some (.urlError .missingProtocolScheme)), emptySchemeTarget, Run.init) :=
  (Wait_validates_first worldRefusing emptySchemeTarget).1 _ rfl 3 Run.init

/-- C12: `validateTarget` leaves `Scheme`, `Host`, `Port`, `Timeout`, the
logger and the four message templates as they are; `ConnectTimeout` changes
only when the call returns `nil` and `ConnectTimeout` was 0, and then it
becomes one second; after every successful validation `ConnectTimeout` is
non-zero; and when an error is returned the whole target is unchanged. -/
theorem validateTarget_frame (wh : WaitHost) :
    ((validateTarget wh).1.Scheme = wh.Scheme ∧ (validateTarget wh).1.Host = wh.Host ∧
      (validateTarget wh).1.Port = wh.Port ∧ (validateTarget wh).1.Timeout = wh.Timeout ∧
      (validateTarget wh).1.logger = wh.logger ∧
      (validateTarget wh).1.waitMessage = wh.waitMessage ∧
      (validateTarget wh).1.retryMessage = wh.retryMessage ∧
      (validateTarget wh).1.successMessage = wh.successMessage ∧
      (validateTarget wh).1.timeoutMessage = wh.timeoutMessage) ∧
    ((validateTarget wh).1.ConnectTimeout ≠ wh.ConnectTimeout →
      (validateTarget wh).2 = none ∧ wh.ConnectTimeout = 0 ∧
      (validateTarget wh).1.ConnectTimeout = 1 * Second) ∧
    ((validateTarget wh).2 = none → wh.ConnectTimeout = 0 →
      (validateTarget wh).1.ConnectTimeout = 1 * Second) ∧
    ((validateTarget wh).2 = none → (validateTarget wh).1.ConnectTimeout ≠ 0) ∧
    (∀ err, (validateTarget wh).2 = some err → (validateTarget wh).1 = wh) := by
  rcases validateTarget_shape wh with ⟨e, hv⟩ | ⟨hv, hct, _⟩ | ⟨hv, hct, _⟩
  · rw [hv]
    exact ⟨⟨rfl, rfl, rfl, rfl, rfl, rfl, rfl, rfl, rfl⟩, fun h => absurd rfl h,
      fun h => (by cases h), fun h => (by cases h), fun _ _ => rfl⟩
  · rw [hv]
    exact ⟨⟨rfl, rfl, rfl, rfl, rfl, rfl, rfl, rfl, rfl⟩, fun h => absurd rfl h,
      fun _ h => absurd h hct, fun _ => hct, fun _ _ => rfl⟩
  · rw [hv]
    refine ⟨⟨rfl, rfl, rfl, rfl, rfl, rfl, rfl, rfl, rfl⟩, fun _ => ⟨rfl, hct, rfl⟩,
      fun _ _ => rfl, fun _ => (by show (1 * Second : Int) ≠ 0; decide), fun err h => (by cases h)⟩

/-- C12 on the sample target with `ConnectTimeout = 0`: validation succeeds
and sets `ConnectTimeout` to one second. -/
theorem validateTarget_frame_witness :
    (validateTarget (sampleTarget 0 0)).1.ConnectTimeout = 1 * Second :=
  (validateTarget_frame (sampleTarget 0 0)).2.2.1 rfl rfl

/-- C13 fails on the code: for the validated target `http://localhost:8080`,
`Wait` dials the address `localhost:http`, the host followed by the scheme
name, not `localhost:8080`; the port of the target is not part of the address. -/
theorem Wait_http_dials_scheme_name :
    (validateTarget httpTarget).2 = none ∧
    httpTarget.Wait (worldAcceptingAfter 0) 1 Run.init =
      some (.returned none, httpTarget,
        { clock := 2000000, reads := 2, dials := 1,
          trace := [.now 1000000, .print .wait "waiting for localhost".toList, .now 2000000,
            .dial "tcp".toList "localhost:http".toList,
            .print .success "localhost:8080 is up".toList] }) ∧
    "localhost:http".toList ≠ httpTarget.Host ++ ":".toList ++ formatUint httpTarget.Port := by
  refine ⟨rfl, rfl, by decide⟩

/-! ## Ports: claims C15, C16 and C19 -/

/-- The port that `splitHostPort` splits off consists of digits only. -/
theorem url.splitHostPort_port_digits (hostPort : GoString) :
    (url.splitHostPort hostPort).2.all isDigit = true := by
  have key : ∀ split : GoString × GoString,
      (if strings.startsWith split.1 ['['] ∧ strings.endsWith split.1 [']'] then
        ((split.1.drop 1).dropLast, split.2) else split).2 = split.2 := by
    intro split; split <;> rfl
  unfold url.splitHostPort
  simp only [key]
  cases hc : strings.findLastSub [':'] hostPort with
  | none => rfl
  | some colon =>
    simp only
    split
    · rename_i hv
      cases hd : hostPort.drop colon with
      | nil =>
        have : hostPort.drop (colon + 1) = [] := by
          rw [← List.drop_drop, hd]; rfl
        simp [this]
      | cons c rest =>
        have : hostPort.drop (colon + 1) = rest := by
          rw [← List.drop_drop, hd]; rfl
        rw [hd] at hv
        simp only [url.validOptionalPort, Bool.and_eq_true] at hv
        simp only [this]
        exact hv.2
    · rfl

/-- `Atoi` on a string of digits: it fails on the empty string and on a value
that does not fit an `int`, and returns the value otherwise. -/
theorem strconv.Atoi_digits_cases (p : GoString) (hp : p.all isDigit = true) :
    (strconv.Atoi p = none ∧ (p = [] ∨ 2 ^ 63 ≤ strconv.digitsValue p)) ∨
    (strconv.Atoi p = some (strconv.digitsValue p : Int) ∧ p ≠ [] ∧
      strconv.digitsValue p < 2 ^ 63) := by
  by_cases hne : p = []
  · subst hne; exact Or.inl ⟨rfl, Or.inl rfl⟩
  · by_cases hv : strconv.digitsValue p < 2 ^ 63
    · exact Or.inr ⟨strconv.Atoi_digits p hne hp hv, hne, hv⟩
    · refine Or.inl ⟨?_, Or.inr (by omega)⟩
      cases p with
      | nil => exact absurd rfl hne
      | cons c cs =>
        have hc : isDigit c = true := by
          simp only [List.all_cons, Bool.and_eq_true] at hp
          exact hp.1
        have h1 : c ≠ '-' := by rintro rfl; revert hc; decide
        have h2 : c ≠ '+' := by rintro rfl; revert hc; decide
        have hv' : ¬ ((strconv.digitsValue (c :: cs) : Nat) : Int) < 2 ^ 63 := by
          intro h; apply hv; exact_mod_cast h
        simp only [strconv.Atoi, h1, h2, or_self, if_false, hp, List.isEmpty_cons, Bool.not_true,
          Bool.or_self, Bool.false_eq_true, hv']

/-- What `extractTarget` builds from the parsed URL: the scheme, the host name,
and as port the value of the port text when `Atoi` accepts it, the entry of the
port table otherwise. -/
theorem extractTarget_ok (raw : GoString) (wh : WaitHost) (h : extractTarget raw = .ok wh) :
    ∃ u, url.Parse (withDefaults raw) = .ok u ∧ wh.Scheme = u.Scheme ∧ wh.Host = u.Hostname ∧
      wh.Timeout = DefaultTimeout ∧ wh.ConnectTimeout = 1 * Second ∧
      ((strconv.Atoi u.Port = none ∧ wh.Port = portMap u.Scheme) ∨
        (strconv.Atoi u.Port = some (strconv.digitsValue u.Port : Int) ∧ u.Port ≠ [] ∧
          strconv.digitsValue u.Port < 2 ^ 63 ∧ wh.Port = strconv.digitsValue u.Port)) := by
  unfold extractTarget at h
  cases hp : url.Parse (withDefaults raw) with
  | error e => simp [hp] at h
  | ok u =>
    refine ⟨u, rfl, ?_⟩
    simp only [hp] at h
    rcases strconv.Atoi_digits_cases u.Port (url.splitHostPort_port_digits u.Host) with
      ⟨ha, _⟩ | ⟨ha, hne, hv⟩
    · simp only [ha, Except.ok.injEq] at h
      subst h
      exact ⟨rfl, rfl, rfl, rfl, Or.inl ⟨ha, rfl⟩⟩
    · simp only [ha, Except.ok.injEq] at h
      subst h
      exact ⟨rfl, rfl, rfl, rfl, Or.inr ⟨ha, hne, hv, toUint_natCast _ hv⟩⟩

theorem portMap_le (s : GoString) : portMap s ≤ 443 := by
  unfold portMap; split
  · decide
  · split <;> decide

/-- C15, as the code has it: for every raw string, if `extractTarget` succeeds
and `validateTarget` then accepts the resulting target, its `Port` lies in the
range 1..2^63-1, the positive values of Go's `int`; no step bounds it by 65535. -/
theorem extractTarget_port_range (raw : GoString) (wh : WaitHost)
    (h : extractTarget raw = .ok wh) (hv : (validateTarget wh).2 = none) :
    1 ≤ wh.Port ∧ wh.Port < 2 ^ 63 := by
  have hpos : wh.Port ≠ 0 := by
    rcases validateTarget_shape wh with ⟨e, he⟩ | ⟨_, _, _, _, h3⟩ | ⟨_, _, _, _, h3⟩
    · rw [he] at hv; cases hv
    · exact h3
    · exact h3
  obtain ⟨u, _, _, _, _, _, hport⟩ := extractTarget_ok raw wh h
  refine ⟨by omega, ?_⟩
  rcases hport with ⟨_, hp⟩ | ⟨_, _, hlt, hp⟩
  · rw [hp]
    exact lt_of_le_of_lt (portMap_le _) (by decide)
  · rw [hp]; exact hlt

/-- C15 at the raw string `localhost:1123`. -/
theorem extractTarget_port_range_witness :
    1 ≤ (sampleTarget DefaultTimeout (1 * Second)).Port ∧
      (sampleTarget DefaultTimeout (1 * Second)).Port < 2 ^ 63 ∧
      extractTarget "localhost:1123".toList =
        .ok { sampleTarget DefaultTimeout (1 * Second) with
              waitMessage := [], successMessage := [], timeoutMessage := [] } :=
  ⟨(extractTarget_port_range "localhost:1123".toList
      { sampleTarget DefaultTimeout (1 * Second) with
        waitMessage := [], successMessage := [], timeoutMessage := [] } rfl rfl).1,
    (extractTarget_port_range "localhost:1123".toList
      { sampleTarget DefaultTimeout (1 * Second) with
        waitMessage := [], successMessage := [], timeoutMessage := [] } rfl rfl).2, rfl⟩

/-- C15 fails as stated: the raw string `localhost:70000` resolves to a target
with `Port = 70000`, which `validateTarget` accepts, and 70000 is above 65535. -/
theorem extractTarget_port_above_65535 :
    extractTarget "localhost:70000".toList =
        .ok { sampleTarget DefaultTimeout (1 * Second) with
              Port := 70000, waitMessage := [], successMessage := [], timeoutMessage := [] } ∧
      (validateTarget { sampleTarget DefaultTimeout (1 * Second) with
          Port := 70000, waitMessage := [], successMessage := [], timeoutMessage := [] }).2 = none ∧
      ¬ (70000 : Nat) ≤ 65535 := by
  refine ⟨rfl, rfl, by decide⟩

theorem withDefaults_hostname (h : GoString) (hh : h.all isHostnameByte = true) :
    withDefaults h = DefaultScheme ++ "://".toList ++ h := by
  have ha := all_hostname_authority h hh
  have h1 : strings.Index h "://".toList = -1 :=
    strings.Index_none _ _ '/' (by decide) (authority_not_mem h ha).2.2.1
  have h2 : strings.Index h ":".toList = -1 :=
    strings.Index_none _ _ ':' (by decide) (colon_not_mem_hostname h hh)
  have h1' : strings.Index h [':', '/', '/'] = -1 := h1
  have h2' : strings.Index h [':'] = -1 := h2
  simp [withDefaults, h1', h2']

theorem withDefaults_tcp (h : GoString) :
    withDefaults ("tcp://".toList ++ h) = DefaultScheme ++ "://".toList ++ h := by
  have e1 : "tcp://".toList ++ h = 't' :: 'c' :: 'p' :: ':' :: '/' :: '/' :: h := rfl
  have e2 : DefaultScheme ++ "://".toList ++ h = 't' :: 'c' :: 'p' :: ':' :: '/' :: '/' :: h := rfl
  have e3 : "://".toList = [':', '/', '/'] := rfl
  have e4 : ":".toList = [':'] := rfl
  rw [e1, e2]
  simp [withDefaults, e3, e4, strings.Index, strings.findSub, List.isPrefixOf]

/-- A raw string that resolves to the scheme `tcp` and a plain host without a
port yields the target with `Port = 0`. -/
theorem extractTarget_tcp_no_port (raw h : GoString) (hh : h.all isHostnameByte = true)
    (hd : withDefaults raw = DefaultScheme ++ "://".toList ++ h) :
    extractTarget raw = .ok (resolvedTarget "tcp".toList h 0) := by
  have hparse : url.Parse (withDefaults raw) = .ok { Scheme := "tcp".toList, Host := h } := by
    rw [hd]
    exact url.Parse_authority DefaultScheme h (by decide) (all_hostname_authority h hh)
      (url.parseHost_hostname h hh)
  have hsplit := url.splitHostPort_hostname h hh
  have hatoi : strconv.Atoi [] = none := rfl
  simp only [extractTarget, hparse, url.URL.Port, url.URL.Hostname, hsplit, hatoi]
  rfl

/-- `validateTarget` rejects a `tcp` target with a plain, non-empty host and port 0 as BAD_PORT. -/
theorem validateTarget_tcp_port_zero (wh : WaitHost) (hs : wh.Scheme = "tcp".toList)
    (hne : wh.Host ≠ []) (hh : wh.Host.all isHostnameByte = true) (hp : wh.Port = 0) :
    validateTarget wh = (wh, some (.waitHost ⟨.BAD_PORT⟩)) := by
  have hparse : ∃ u, url.Parse (targetString wh) = .ok u := by
    have : targetString wh = wh.Scheme ++ "://".toList ++ (wh.Host ++ ':' :: formatUint wh.Port) := by
      simp [targetString, String.toList]
    rw [this]
    exact ⟨_, url.Parse_authority _ _ (by rw [hs]; decide)
      (host_port_authority _ _ hh (formatUint_digits _))
      (url.parseHost_host_port _ _ hh (formatUint_digits _))⟩
  exact ((validateTarget_cases wh).2 hparse).2.2.1 (by rw [hs]; decide) hne hp

theorem Wait_of_validation_error (w : World) (raw : GoString) (wh : WaitHost) (err : GoError)
    (he : extractTarget raw = .ok wh) (hv : validateTarget wh = (wh, some err)) (fuel : Nat)
    (r : Run) : Wait w raw fuel r = some (.returned (some err), r) := by
  simp [Wait, he, WaitHost.Wait, hv]

/-- C16, as the code has it: for every raw string without a port whose host is
a non-empty plain host name and whose scheme, given (`tcp://host`) or defaulted
(`host`), is `tcp`, the one accepted scheme without an entry in the port
table, `extractTarget` returns no error and a target with `Port = 0`, and
`Wait` on that raw string returns the BAD_PORT error with the run untouched:
no dial attempt and no message. -/
theorem Wait_tcp_no_port (h : GoString) (hne : h ≠ []) (hh : h.all isHostnameByte = true)
    (w : World) (fuel : Nat) (r : Run) :
    (extractTarget h = .ok (resolvedTarget "tcp".toList h 0) ∧
      Wait w h fuel r = some (.returned (some (.waitHost ⟨.BAD_PORT⟩)), r)) ∧
    (extractTarget ("tcp://".toList ++ h) = .ok (resolvedTarget "tcp".toList h 0) ∧
      Wait w ("tcp://".toList ++ h) fuel r = some (.returned (some (.waitHost ⟨.BAD_PORT⟩)), r)) := by
  have hv := validateTarget_tcp_port_zero (resolvedTarget "tcp".toList h 0) rfl hne hh rfl
  have h1 := extractTarget_tcp_no_port h h hh (withDefaults_hostname h hh)
  have h2 := extractTarget_tcp_no_port ("tcp://".toList ++ h) h hh (withDefaults_tcp h)
  exact ⟨⟨h1, Wait_of_validation_error w _ _ _ h1 hv fuel r⟩,
    ⟨h2, Wait_of_validation_error w _ _ _ h2 hv fuel r⟩⟩

/-- C16 at the raw string `goland.org`. -/
theorem Wait_tcp_no_port_witness :
    (extractTarget "goland.org".toList = .ok (resolvedTarget "tcp".toList "goland.org".toList 0) ∧
      Wait worldRefusing "goland.org".toList 3 Run.init =
        some (.returned (some (.waitHost ⟨.BAD_PORT⟩)), Run.init)) ∧
    (extractTarget ("tcp://".toList ++ "goland.org".toList) =
        .ok (resolvedTarget "tcp".toList "goland.org".toList 0) ∧
      Wait worldRefusing ("tcp://".toList ++ "goland.org".toList) 3 Run.init =
        some (.returned (some (.waitHost ⟨.BAD_PORT⟩)), Run.init)) :=
  Wait_tcp_no_port "goland.org".toList (by decide) (by decide) worldRefusing 3 Run.init

/-- C16 fails as stated: the raw string `ftp://goland.org` has no port and its
scheme has no entry in the port table; `extractTarget` returns a target with
`Port = 0`, but `Wait` returns the BAD_SCHEME error, not BAD_PORT. -/
theorem Wait_ftp_no_port_bad_scheme :
    portMap "ftp".toList = 0 ∧
      extractTarget "ftp://goland.org".toList =
        .ok (resolvedTarget "ftp".toList "goland.org".toList 0) ∧
      Wait worldRefusing "ftp://goland.org".toList 3 Run.init =
        some (.returned (some (.waitHost ⟨.BAD_SCHEME⟩)), Run.init) ∧
      GoError.waitHost ⟨.BAD_SCHEME⟩ ≠ GoError.waitHost ⟨.BAD_PORT⟩ := by
  refine ⟨rfl, rfl, rfl, by decide⟩

/-- C19, as the code has it: for every raw string whose port part (what
`Port()` of the parsed URL gives) is a non-empty string of decimal digits with
a value in the range of Go's `int`, below 2^63, `extractTarget` returns a
target whose `Port` is the numeric value of that digit string, whatever the
scheme and whatever the port table holds for it. -/
theorem extractTarget_numeric_port (raw : GoString) (u : url.URL)
    (hparse : url.Parse (withDefaults raw) = .ok u) (hne : u.Port ≠ [])
    (hv : strconv.digitsValue u.Port < 2 ^ 63) :
    u.Port.all isDigit = true ∧
      ∃ wh, extractTarget raw = .ok wh ∧ wh.Scheme = u.Scheme ∧ wh.Host = u.Hostname ∧
        wh.Port = strconv.digitsValue u.Port := by
  have hd : u.Port.all isDigit = true := url.splitHostPort_port_digits u.Host
  refine ⟨hd, ?_⟩
  simp only [extractTarget, hparse, strconv.Atoi_digits u.Port hne hd hv]
  exact ⟨_, rfl, rfl, rfl, toUint_natCast _ hv⟩

/-- C19 at the raw string `http://goland.org:8080`: the port is 8080, not the 80 of the table. -/
theorem extractTarget_numeric_port_witness :
    url.URL.Port { Scheme := "http".toList, Host := "goland.org:8080".toList } = "8080".toList ∧
      (url.URL.Port { Scheme := "http".toList, Host := "goland.org:8080".toList }).all isDigit
        = true ∧
      ∃ wh, extractTarget "http://goland.org:8080".toList = .ok wh ∧
        wh.Scheme = "http".toList ∧
        wh.Host = url.URL.Hostname { Scheme := "http".toList, Host := "goland.org:8080".toList } ∧
        wh.Port =
          strconv.digitsValue
            (url.URL.Port { Scheme := "http".toList, Host := "goland.org:8080".toList }) :=
  ⟨rfl, extractTarget_numeric_port "http://goland.org:8080".toList
    { Scheme := "http".toList, Host := "goland.org:8080".toList } rfl (by decide) (by decide)⟩

/-- C19 fails as stated: in `http://goland.org:9223372036854775808` the port
part is a string of decimal digits with the value 2^63, which `Atoi` rejects,
and `extractTarget` returns the target with `Port = 80`, the entry of the port
table for `http`. -/
theorem extractTarget_port_overflow :
    strconv.digitsValue "9223372036854775808".toList = 2 ^ 63 ∧
      extractTarget "http://goland.org:9223372036854775808".toList =
        .ok (resolvedTarget "http".toList "goland.org".toList 80) ∧
      portMap "http".toList = 80 ∧ (80 : Nat) ≠ 2 ^ 63 := by
  refine ⟨by decide, rfl, rfl, by decide⟩

/-! ## Pacing and messages: claims C17 and C18 -/

theorem afterDial_trace_eq (w : World) (wh : WaitHost) (network address : GoString) (r : Run) :
    (afterDial w wh network address r).trace =
      r.trace ++ (if wh.Timeout > 0 then [.now (timeNow w r).1] else []) ++
        [.now (dialStart w wh r), .dial network address] := by
  unfold afterDial dialStart afterDeadline
  by_cases hT : wh.Timeout > 0 <;> simp [hT, netDial, timeNow]

theorem afterRetry_trace_eq (w : World) (wh : WaitHost) (network address : GoString) (r : Run) :
    (afterRetry w wh network address r).trace =
      (afterDial w wh network address r).trace ++ [.now (dialEnd w wh network address r)] ++
        (if dialEnd w wh network address r - dialStart w wh r < wh.ConnectTimeout then
          [.sleep (wh.ConnectTimeout - (dialEnd w wh network address r - dialStart w wh r))]
         else []) ++
        wh.printed .retry wh.retryMessage := by
  unfold afterRetry dialEnd dialStart
  simp only [printMessage_trace]
  split <;> simp [timeSleep, timeNow]

theorem afterRetry_clock_eq (w : World) (wh : WaitHost) (network address : GoString) (r : Run) :
    (afterRetry w wh network address r).clock =
      if dialEnd w wh network address r - dialStart w wh r < wh.ConnectTimeout then
        dialStart w wh r + wh.ConnectTimeout
      else dialEnd w wh network address r := by
  unfold afterRetry dialEnd dialStart
  simp only [printMessage_clock]
  split
  · rename_i h
    simp only [timeSleep, timeNow] at h ⊢
    rw [max_eq_left (by omega)]
    omega
  · rfl

theorem dialStart_ge (w : World) (wh : WaitHost) (r : Run) (hmono : ∀ n, 0 ≤ w.elapse n) :
    r.clock ≤ dialStart w wh r := by
  unfold dialStart afterDeadline
  split
  · have := hmono r.reads; have := hmono (r.reads + 1); simp [timeNow]; omega
  · have := hmono r.reads; simpa [timeNow] using this

theorem retryStates_dials (w : World) (wh : WaitHost) (network address : GoString) (r : Run)
    (k : Nat) : (retryStates w wh network address r k).dials = r.dials + k := by
  induction k with
  | zero => rfl
  | succ k ih => rw [retryStates, afterRetry_dials, ih]; omega

theorem afterRetry_trace_iteration (w : World) (wh : WaitHost) (network address : GoString)
    (s : Run) :
    (afterRetry w wh network address s).trace = s.trace ++ iterationEvents w wh network address s := by
  rw [afterRetry_trace_eq, afterDial_trace_eq]
  unfold iterationEvents
  simp only [List.append_assoc, List.cons_append, List.nil_append]

theorem retryStates_trace (w : World) (wh : WaitHost) (network address : GoString) (r : Run)
    (N : Nat) :
    (retryStates w wh network address r N).trace =
      r.trace ++ ((List.range N).map fun k =>
        iterationEvents w wh network address (retryStates w wh network address r k)).flatten := by
  induction N with
  | zero => simp [retryStates]
  | succ N ih =>
    rw [retryStates, afterRetry_trace_iteration, ih, List.range_succ]
    simp [List.append_assoc]

/-- As long as the deadline check does not end the loop and the dial attempts
fail, the loop goes from one iteration to the next. -/
theorem checkLoop_retries (w : World) (wh : WaitHost) (network address : GoString) (start : Int)
    (hdial : DialContract w) (r : Run) :
    ∀ N : Nat,
      (∀ k, k < N → (w.dial (r.dials + k)).err ≠ none) →
      (∀ k, k < N → ¬ Expired w wh start (retryStates w wh network address r k)) →
      ∀ fuel, checkLoop w wh network address start (fuel + N) r =
        checkLoop w wh network address start fuel (retryStates w wh network address r N) := by
  intro N
  induction N with
  | zero => intro _ _ fuel; rfl
  | succ N ih =>
    intro hfail hlive fuel
    have h1 := ih (fun k hk => hfail k (by omega)) (fun k hk => hlive k (by omega)) (fuel + 1)
    have e : fuel + (N + 1) = fuel + 1 + N := by omega
    rw [e, h1]
    have hd := hfail N (by omega)
    have hd' : (w.dial (retryStates w wh network address r N).dials).err ≠ none := by
      rw [retryStates_dials]; exact hd
    obtain ⟨err, herr⟩ := Option.ne_none_iff_exists'.1 hd'
    rw [checkLoop_retry _ _ _ _ _ _ _ (hlive N (by omega)) err herr (hdial _ hd')]
    rfl

/-- C17: take a run of `check` whose first `N` dial attempts fail (`net.Dial`
returning an error and, as it always does with an error, no connection)
without the deadline check ending the loop before them. Whatever bound above
`N` the loop is given, `check` returns: `nil` when the next dial attempt
succeeds, TIMEOUT when the next deadline check has passed. In both cases the
run consists of the start reading, the wait message, then for each of the `N`
failed iterations, with `tw` the time between the reading before the dial and
the reading after it: these readings and the dial, a sleep of exactly
`ConnectTimeout - tw` when `tw < ConnectTimeout` and no sleep otherwise, and
then the retry message (one rendered line when the template is non-empty and
a logger is set), before the deadline check of the next iteration. The sleep
leaves the clock at `td + ConnectTimeout`; hence, with a clock that never
steps back, the start times of two consecutive dial attempts are at least
`ConnectTimeout` apart. -/
theorem check_pacing (w : World) (wh : WaitHost) (network address : GoString) (r : Run)
    (N fuel : Nat) (hdial : DialContract w)
    (hfail : ∀ k, k < N → (w.dial (r.dials + k)).err ≠ none)
    (hlive : ∀ k, k < N → ¬ Expired w wh (timeNow w r).1
      (retryStates w wh network address (loopStart w wh r) k)) :
    (¬ Expired w wh (timeNow w r).1 (retryStates w wh network address (loopStart w wh r) N) →
      (w.dial (r.dials + N)).err = none →
      ∃ r', check w wh network address (fuel + N + 1) r = some (none, r') ∧
        r'.dials = r.dials + N + 1 ∧
        r'.trace = r.trace ++ .now (timeNow w r).1 :: wh.printed .wait wh.waitMessage ++
          ((List.range N).map fun k => iterationEvents w wh network address
            (retryStates w wh network address (loopStart w wh r) k)).flatten ++
          (if wh.Timeout > 0 then
            [.now (timeNow w (retryStates w wh network address (loopStart w wh r) N)).1]
           else []) ++
          [.now (dialStart w wh (retryStates w wh network address (loopStart w wh r) N)),
           .dial network address] ++
          wh.printed .success wh.successMessage) ∧
    (Expired w wh (timeNow w r).1 (retryStates w wh network address (loopStart w wh r) N) →
      ∃ r', check w wh network address (fuel + N + 1) r
          = some (some (.waitHost ⟨.TIMEOUT⟩), r') ∧
        r'.dials = r.dials + N ∧
        r'.trace = r.trace ++ .now (timeNow w r).1 :: wh.printed .wait wh.waitMessage ++
          ((List.range N).map fun k => iterationEvents w wh network address
            (retryStates w wh network address (loopStart w wh r) k)).flatten ++
          .now (timeNow w (retryStates w wh network address (loopStart w wh r) N)).1 ::
            wh.printed .timeout wh.timeoutMessage) ∧
    (∀ k, k < N →
      (retryStates w wh network address (loopStart w wh r) (k + 1)).clock =
        if dialEnd w wh network address (retryStates w wh network address (loopStart w wh r) k) -
            dialStart w wh (retryStates w wh network address (loopStart w wh r) k)
            < wh.ConnectTimeout then
          dialStart w wh (retryStates w wh network address (loopStart w wh r) k) +
            wh.ConnectTimeout
        else dialEnd w wh network address
          (retryStates w wh network address (loopStart w wh r) k)) ∧
    (wh.logger ≠ none → wh.retryMessage ≠ [] →
      wh.printed .retry wh.retryMessage = [.print .retry (wh.render wh.retryMessage)]) ∧
    ((∀ n, 0 ≤ w.elapse n) → ∀ k, k < N →
      dialStart w wh (retryStates w wh network address (loopStart w wh r) k) +
          wh.ConnectTimeout ≤
        dialStart w wh (retryStates w wh network address (loopStart w wh r) (k + 1))) := by
  have hd0 : (loopStart w wh r).dials = r.dials := by simp [loopStart, timeNow]
  have hfail' : ∀ k, k < N → (w.dial ((loopStart w wh r).dials + k)).err ≠ none := by
    intro k hk; rw [hd0]; exact hfail k hk
  have hloop := checkLoop_retries w wh network address (timeNow w r).1 hdial (loopStart w wh r) N
    hfail' hlive (fuel + 1)
  have hcheck : check w wh network address (fuel + N + 1) r =
      checkLoop w wh network address (timeNow w r).1 (fuel + 1)
        (retryStates w wh network address (loopStart w wh r) N) := by
    have e : fuel + N + 1 = fuel + 1 + N := by omega
    rw [e, ← hloop]
    rfl
  have htrace := retryStates_trace w wh network address (loopStart w wh r) N
  have hstart : (loopStart w wh r).trace =
      r.trace ++ .now (timeNow w r).1 :: wh.printed .wait wh.waitMessage := by
    simp [loopStart, timeNow]
  have hdN := retryStates_dials w wh network address (loopStart w wh r) N
  refine ⟨?_, ?_, ?_, printed_eq_render wh _ _, ?_⟩
  · intro hx hok
    have hok' : (w.dial (retryStates w wh network address (loopStart w wh r) N).dials).err
        = none := by rw [hdN, hd0]; exact hok
    refine ⟨_, by rw [hcheck, checkLoop_success _ _ _ _ _ _ _ hx hok'], ?_, ?_⟩
    · rw [printMessage_dials, afterDial_dials, hdN, hd0]
    · rw [printMessage_trace, afterDial_trace_eq, htrace, hstart]
  · intro hx
    refine ⟨_, by rw [hcheck, checkLoop_expired _ _ _ _ _ _ _ hx], ?_, ?_⟩
    · simp [timeNow, hdN, hd0]
    · simp [timeNow, htrace, hstart]
  · intro k _
    rw [retryStates, afterRetry_clock_eq]
  · intro hmono k _
    have hge := dialStart_ge w wh (retryStates w wh network address (loopStart w wh r) (k + 1))
      hmono
    have hcl := afterRetry_clock_eq w wh network address
      (retryStates w wh network address (loopStart w wh r) k)
    have e : retryStates w wh network address (loopStart w wh r) (k + 1) =
        afterRetry w wh network address
          (retryStates w wh network address (loopStart w wh r) k) := rfl
    rw [e] at hge ⊢
    rw [hcl] at hge
    split at hge
    · exact hge
    · omega

/-- C17 on a run whose first dial attempt is refused and whose second
succeeds, each step taking a millisecond: the dial is followed, a millisecond
later, by a sleep of the remaining 999 milliseconds and then the retry line. -/
theorem check_pacing_witness :
    (∃ r', check (worldAcceptingAfter 1) (sampleTarget 0 Second) "tcp".toList
        "localhost:1123".toList 2 Run.init = some (none, r') ∧
      r'.dials = Run.init.dials + 1 + 1 ∧
      r'.trace = Run.init.trace ++
          .now (timeNow (worldAcceptingAfter 1) Run.init).1 ::
            (sampleTarget 0 Second).printed .wait (sampleTarget 0 Second).waitMessage ++
          ((List.range 1).map fun k => iterationEvents (worldAcceptingAfter 1)
            (sampleTarget 0 Second) "tcp".toList "localhost:1123".toList
            (retryStates (worldAcceptingAfter 1) (sampleTarget 0 Second) "tcp".toList
              "localhost:1123".toList
              (loopStart (worldAcceptingAfter 1) (sampleTarget 0 Second) Run.init) k)).flatten ++
          (if (sampleTarget 0 Second).Timeout > 0 then
            [.now (timeNow (worldAcceptingAfter 1)
              (retryStates (worldAcceptingAfter 1) (sampleTarget 0 Second) "tcp".toList
                "localhost:1123".toList
                (loopStart (worldAcceptingAfter 1) (sampleTarget 0 Second) Run.init) 1)).1]
           else []) ++
          [.now (dialStart (worldAcceptingAfter 1) (sampleTarget 0 Second)
              (retryStates (worldAcceptingAfter 1) (sampleTarget 0 Second) "tcp".toList
                "localhost:1123".toList
                (loopStart (worldAcceptingAfter 1) (sampleTarget 0 Second) Run.init) 1)),
           .dial "tcp".toList "localhost:1123".toList] ++
          (sampleTarget 0 Second).printed .success (sampleTarget 0 Second).successMessage) ∧
    check (worldAcceptingAfter 1) (sampleTarget 0 Second) "tcp".toList "localhost:1123".toList 2
        Run.init =
      some (none,
        { clock := 1003000000, reads := 4, dials := 2,
          trace := [.now 1000000, .print .wait "waiting for localhost".toList,
            .now 2000000, .dial "tcp".toList "localhost:1123".toList, .now 3000000,
            .sleep 999000000,
            .print .retry "Waiting for connection on localhost:1123".toList,
            .now 1003000000, .dial "tcp".toList "localhost:1123".toList,
            .print .success "localhost:1123 is up".toList] }) :=
  ⟨(check_pacing (worldAcceptingAfter 1) (sampleTarget 0 Second) "tcp".toList
      "localhost:1123".toList Run.init 1 0
      (fun n hn => by
        unfold worldAcceptingAfter at hn ⊢
        by_cases h : n < 1 <;> simp_all)
      (fun k hk => by
        have : k = 0 := by omega
        subst this
        decide)
      (fun _ _ h => absurd h.1 (by decide))).1 (fun h => absurd h.1 (by decide)) rfl, rfl⟩

theorem prints_append (a b : List Event) : prints (a ++ b) = prints a ++ prints b := by
  simp [prints, List.filter_append]

theorem prints_printed (wh : WaitHost) (k : Template) (m : GoString) :
    prints (wh.printed k m) = wh.printed k m := by
  unfold prints
  rw [List.filter_eq_self]
  intro e he
  obtain ⟨line, rfl⟩ := printed_which wh k m e he
  rfl

theorem printed_length_le (wh : WaitHost) (k : Template) (m : GoString) :
    (wh.printed k m).length ≤ 1 := by
  unfold WaitHost.printed WaitHost.printMessage
  by_cases h1 : wh.logger = none
  · simp [h1, Run.init]
  · by_cases h2 : m.length = 0
    · simp [h1, h2, Run.init]
    · simp [h1, h2, Run.init]

theorem prints_afterDial (w : World) (wh : WaitHost) (network address : GoString) (r : Run) :
    ∃ added, (afterDial w wh network address r).trace = r.trace ++ added ∧ prints added = [] := by
  refine ⟨(if wh.Timeout > 0 then [.now (timeNow w r).1] else []) ++
    [.now (dialStart w wh r), .dial network address], ?_, ?_⟩
  · rw [afterDial_trace_eq, List.append_assoc]
  · split <;> rfl

theorem prints_afterRetry (w : World) (wh : WaitHost) (network address : GoString) (r : Run) :
    ∃ added, (afterRetry w wh network address r).trace = r.trace ++ added ∧
      prints added = wh.printed .retry wh.retryMessage := by
  obtain ⟨a1, h1, h1'⟩ := prints_afterDial w wh network address r
  refine ⟨a1 ++ [.now (dialEnd w wh network address r)] ++
    (if dialEnd w wh network address r - dialStart w wh r < wh.ConnectTimeout then
      [.sleep (wh.ConnectTimeout - (dialEnd w wh network address r - dialStart w wh r))]
     else []) ++ wh.printed .retry wh.retryMessage, ?_, ?_⟩
  · rw [afterRetry_trace_eq, h1]
    simp only [List.append_assoc]
  · rw [prints_append, prints_append, prints_append, h1', prints_printed]
    split <;> rfl

/-- The lines a run of the loop prints, when `net.Dial` keeps its contract:
one retry line per failed dial attempt, then what `printMessage` emits for the
success template (after a dial that succeeded) or for the timeout template. -/
theorem checkLoop_prints (w : World) (wh : WaitHost) (network address : GoString) (start : Int)
    (hdial : DialContract w) :
    ∀ (fuel : Nat) (r : Run) (e : Option GoError) (r' : Run),
      checkLoop w wh network address start fuel r = some (e, r') →
      ∃ N added, r'.trace = r.trace ++ added ∧
        (∀ k, k < N → (w.dial (r.dials + k)).err ≠ none) ∧
        ((e = none ∧ r'.dials = r.dials + N + 1 ∧ (w.dial (r.dials + N)).err = none ∧
            prints added = (List.replicate N (wh.printed .retry wh.retryMessage)).flatten ++
              wh.printed .success wh.successMessage) ∨
         (e = some (.waitHost ⟨.TIMEOUT⟩) ∧ r'.dials = r.dials + N ∧
            prints added = (List.replicate N (wh.printed .retry wh.retryMessage)).flatten ++
              wh.printed .timeout wh.timeoutMessage)) := by
  intro fuel
  induction fuel with
  | zero => intro r e r' h; simp [checkLoop] at h
  | succ fuel ih =>
    intro r e r' h
    by_cases hx : Expired w wh start r
    · rw [checkLoop_expired _ _ _ _ _ _ _ hx] at h
      simp only [Option.some.injEq, Prod.mk.injEq] at h
      obtain ⟨rfl, rfl⟩ := h
      refine ⟨0, [.now (timeNow w r).1] ++ wh.printed .timeout wh.timeoutMessage,
        by simp [timeNow], fun k hk => absurd hk (Nat.not_lt_zero k), Or.inr ⟨rfl, by simp [timeNow], ?_⟩⟩
      rw [prints_append, prints_printed]
      rfl
    · obtain ⟨a1, h1, h1'⟩ := prints_afterDial w wh network address r
      cases hd : (w.dial r.dials).err with
      | none =>
        rw [checkLoop_success _ _ _ _ _ _ _ hx hd] at h
        simp only [Option.some.injEq, Prod.mk.injEq] at h
        obtain ⟨rfl, rfl⟩ := h
        refine ⟨0, a1 ++ wh.printed .success wh.successMessage, by simp [h1],
          fun k hk => absurd hk (Nat.not_lt_zero k), Or.inl ⟨rfl, by simp, by simpa using hd, ?_⟩⟩
        rw [prints_append, prints_printed, h1']
        rfl
      | some err =>
        have hc : (w.dial r.dials).conn = none := hdial _ (by simp [hd])
        rw [checkLoop_retry _ _ _ _ _ _ _ hx err hd hc] at h
        obtain ⟨N, a2, h2, hfail, hcases⟩ := ih _ _ _ h
        obtain ⟨a3, h3, h3'⟩ := prints_afterRetry w wh network address r
        rw [afterRetry_dials] at hcases
        refine ⟨N + 1, a3 ++ a2, by rw [h2, h3, List.append_assoc], ?_, ?_⟩
        · intro k hk
          cases k with
          | zero => simp [hd]
          | succ k =>
            have := hfail k (by omega)
            rw [afterRetry_dials] at this
            have e1 : r.dials + (k + 1) = r.dials + 1 + k := by omega
            rw [e1]; exact this
        · have e1 : r.dials + (N + 1) = r.dials + 1 + N := by omega
          rcases hcases with ⟨he, hdl, hok, hpr⟩ | ⟨he, hdl, hpr⟩
          · refine Or.inl ⟨he, by omega, by rw [e1]; exact hok, ?_⟩
            rw [prints_append, h3', hpr]
            simp [List.replicate_succ]
          · refine Or.inr ⟨he, by omega, ?_⟩
            rw [prints_append, h3', hpr]
            simp [List.replicate_succ]

/-- C18: for every target with a logger and non-empty wait and retry messages,
when `net.Dial` keeps its contract, every run of `check` that returns has made
some number `N` of failed dial attempts, followed by one successful attempt
when it returns `nil` and by none when it returns TIMEOUT, and the lines it
prints are: the wait message, once and first, then exactly `N` retry messages,
then what `printMessage` emits for the success or the timeout template, at
most one line. So a run that returns after a failed first and a successful
second dial attempt prints exactly one retry message. -/
theorem check_message_sequence (w : World) (wh : WaitHost) (network address : GoString)
    (fuel : Nat) (r : Run) (e : Option GoError) (r' : Run)
    (hdial : DialContract w) (hl : wh.logger ≠ none) (hw : wh.waitMessage ≠ [])
    (hr : wh.retryMessage ≠ [])
    (h : check w wh network address fuel r = some (e, r')) :
    ∃ N added terminal, r'.trace = r.trace ++ added ∧
      prints added = .print .wait (wh.render wh.waitMessage) ::
        List.replicate N (.print .retry (wh.render wh.retryMessage)) ++ terminal ∧
      terminal.length ≤ 1 ∧
      (∀ k, k < N → (w.dial (r.dials + k)).err ≠ none) ∧
      ((e = none ∧ r'.dials = r.dials + N + 1 ∧ (w.dial (r.dials + N)).err = none ∧
          terminal = wh.printed .success wh.successMessage) ∨
       (e = some (.waitHost ⟨.TIMEOUT⟩) ∧ r'.dials = r.dials + N ∧
          terminal = wh.printed .timeout wh.timeoutMessage)) ∧
      ((w.dial r.dials).err ≠ none → (w.dial (r.dials + 1)).err = none → e = none → N = 1) := by
  unfold check at h
  obtain ⟨N, a, htr, hfail, hcases⟩ := checkLoop_prints w wh network address _ hdial fuel _ e r' h
  simp only [printMessage_trace, printMessage_dials, timeNow] at htr hfail hcases
  have hwait := printed_eq_render wh .wait wh.waitMessage hl hw
  have hretry := printed_eq_render wh .retry wh.retryMessage hl hr
  have hjoin : ∀ n, (List.replicate n (wh.printed .retry wh.retryMessage)).flatten =
      List.replicate n (.print .retry (wh.render wh.retryMessage)) := by
    intro n
    induction n with
    | zero => rfl
    | succ n ihn => rw [List.replicate_succ, List.flatten_cons, ihn, hretry]; rfl
  have hpre : prints (.now (r.clock + w.elapse r.reads) :: wh.printed .wait wh.waitMessage
      ++ a) = .print .wait (wh.render wh.waitMessage) :: prints a := by
    rw [hwait]; rfl
  refine ⟨N, .now (r.clock + w.elapse r.reads) :: wh.printed .wait wh.waitMessage ++ a,
    if e = none then wh.printed .success wh.successMessage
    else wh.printed .timeout wh.timeoutMessage, ?_, ?_, ?_, hfail, ?_, ?_⟩
  · rw [htr]; simp
  · rw [hpre]
    rcases hcases with ⟨he, _, _, hpr⟩ | ⟨he, _, hpr⟩
    · rw [hpr, hjoin, he]; simp
    · rw [hpr, hjoin, he]; simp
  · split <;> exact printed_length_le _ _ _
  · rcases hcases with ⟨he, hdl, hok, _⟩ | ⟨he, hdl, _⟩
    · exact Or.inl ⟨he, hdl, hok, by rw [he]; simp⟩
    · exact Or.inr ⟨he, hdl, by rw [he]; simp⟩
  · intro h0 h1 he
    rcases hcases with ⟨_, _, hok, _⟩ | ⟨he', _, _⟩
    · by_contra hN
      rcases Nat.lt_or_gt_of_ne hN with hlt | hgt
      · have : N = 0 := by omega
        subst this
        exact h0 (by simpa using hok)
      · exact hfail 1 hgt h1
    · rw [he] at he'; cases he'

/-- C18 on a run whose first dial attempt is refused and whose second succeeds:
the wait message, one retry message, the success message. -/
theorem check_message_sequence_witness :
    ∃ r', check (worldAcceptingAfter 1) (sampleTarget 0 Second) "tcp".toList
        "localhost:1123".toList 2 Run.init = some (none, r') ∧
      prints r'.trace =
        [.print .wait "waiting for localhost".toList,
         .print .retry "Waiting for connection on localhost:1123".toList,
         .print .success "localhost:1123 is up".toList] ∧
      ∃ N added terminal, r'.trace = Run.init.trace ++ added ∧
        prints added = .print .wait ((sampleTarget 0 Second).render
            (sampleTarget 0 Second).waitMessage) ::
          List.replicate N (.print .retry ((sampleTarget 0 Second).render
            (sampleTarget 0 Second).retryMessage)) ++ terminal ∧
        terminal.length ≤ 1 ∧
        (∀ k, k < N → ((worldAcceptingAfter 1).dial (Run.init.dials + k)).err ≠ none) ∧
        (((none : Option GoError) = none ∧ r'.dials = Run.init.dials + N + 1 ∧
            ((worldAcceptingAfter 1).dial (Run.init.dials + N)).err = none ∧
            terminal = (sampleTarget 0 Second).printed .success
              (sampleTarget 0 Second).successMessage) ∨
         ((none : Option GoError) = some (.waitHost ⟨.TIMEOUT⟩) ∧
            r'.dials = Run.init.dials + N ∧
            terminal = (sampleTarget 0 Second).printed .timeout
              (sampleTarget 0 Second).timeoutMessage)) ∧
        (((worldAcceptingAfter 1).dial Run.init.dials).err ≠ none →
          ((worldAcceptingAfter 1).dial (Run.init.dials + 1)).err = none →
          (none : Option GoError) = none → N = 1) :=
  ⟨_, rfl, rfl, check_message_sequence (worldAcceptingAfter 1) (sampleTarget 0 Second)
    "tcp".toList "localhost:1123".toList 2 Run.init none _
    (fun n hn => by
      unfold worldAcceptingAfter at hn ⊢
      by_cases h : n < 1 <;> simp_all)
    (by decide) (by decide) (by decide) rfl⟩

/-! ## Message templates: claim C14 -/

theorem strings.replaceAllAux_skip (old new : GoString) (xs R : GoString) :
    strings.replaceAllAux old new xs.length (xs ++ R) = strings.replaceAllAux old new 0 R := by
  induction xs with
  | nil => rfl
  | cons x xs ih => simpa [strings.replaceAllAux] using ih

theorem strings.replaceAllAux_text (rest new : GoString) (b : Char) (x R : GoString)
    (hx : b ∉ x) :
    strings.replaceAllAux (b :: rest) new 0 (x ++ R) =
      x ++ strings.replaceAllAux (b :: rest) new 0 R := by
  induction x with
  | nil => rfl
  | cons c cs ih =>
    have hc : b ≠ c := fun h => hx (by simp [h])
    have hcs : b ∉ cs := fun h => hx (List.mem_cons_of_mem _ h)
    simp [strings.replaceAllAux, List.isPrefixOf, hc, ih hcs]

theorem isPrefixOf_group (key name R : GoString) (hk : '}' ∉ key) (hn : '}' ∉ name) :
    (key ++ ['}']).isPrefixOf (name ++ '}' :: R) = decide (key = name) := by
  induction key generalizing name with
  | nil =>
    cases name with
    | nil => simp [List.isPrefixOf]
    | cons n ns =>
      have : '}' ≠ n := fun h => hn (List.mem_cons.2 (Or.inl h))
      simp [List.isPrefixOf, this]
  | cons k ks ih =>
    have hk' : '}' ∉ ks := fun h => hk (List.mem_cons_of_mem _ h)
    have hk0 : k ≠ '}' := fun h => hk (by simp [h])
    cases name with
    | nil => simp [List.isPrefixOf, hk0]
    | cons n ns =>
      have hn' : '}' ∉ ns := fun h => hn (List.mem_cons_of_mem _ h)
      by_cases hkn : k = n <;> simp [List.isPrefixOf, ih ns hk' hn', hkn]

/-- One pass of `ReplaceAll` for the placeholder `{key}` over a brace group
`{name}` followed by any text: the group is replaced when `name = key` and
copied otherwise, and the pass goes on with the text after it. -/
theorem strings.replaceAllAux_group (key new name R : GoString) (hk : '}' ∉ key)
    (hn : '}' ∉ name) (hn' : '{' ∉ name) :
    strings.replaceAllAux ('{' :: (key ++ ['}'])) new 0 ('{' :: (name ++ '}' :: R)) =
      (if key = name then new else '{' :: (name ++ ['}'])) ++
        strings.replaceAllAux ('{' :: (key ++ ['}'])) new 0 R := by
  have hp : List.isPrefixOf ('{' :: (key ++ ['}'])) ('{' :: (name ++ '}' :: R)) =
      decide (key = name) := by
    simp [List.isPrefixOf, isPrefixOf_group key name R hk hn]
  rw [strings.replaceAllAux, hp]
  by_cases h : key = name
  · subst h
    have hlen : ('{' :: (key ++ ['}'])).length - 1 = (key ++ ['}']).length := by simp
    have hsplit : key ++ '}' :: R = (key ++ ['}']) ++ R := by simp
    simp only [decide_True, if_true, hlen, hsplit, strings.replaceAllAux_skip]
  · have hx : '{' ∉ name ++ ['}'] := by
      simp only [List.mem_append, List.mem_singleton, not_or]
      exact ⟨hn', by decide⟩
    have hsplit : name ++ '}' :: R = (name ++ ['}']) ++ R := by simp
    simp only [h, decide_False, Bool.false_eq_true, if_false, hsplit,
      strings.replaceAllAux_text _ _ _ _ _ hx]
    simp

/-- One pass of `ReplaceAll` for a placeholder `{key}` copies a final `{`
followed by text without braces. -/
theorem strings.replaceAllAux_open (key new cs : GoString) (h1 : '{' ∉ cs) (h2 : '}' ∉ cs) :
    strings.replaceAllAux ('{' :: (key ++ ['}'])) new 0 ('{' :: cs) = '{' :: cs := by
  have hp : List.isPrefixOf ('{' :: (key ++ ['}'])) ('{' :: cs) = false := by
    by_contra hcon
    simp only [Bool.not_eq_false] at hcon
    have := strings.isPrefixOf_mem _ _ hcon '}' (by simp)
    simp only [List.mem_cons] at this
    rcases this with h | h
    · revert h; decide
    · exact h2 h
  have := strings.replaceAllAux_text (key ++ ['}']) new '{' cs [] h1
  simp only [List.append_nil] at this
  rw [strings.replaceAllAux, hp]
  simp only [Bool.false_eq_true, if_false, this]
  simp [strings.replaceAllAux]

theorem strings.ReplaceAll_absent (s old new : GoString) (h : strings.findSub old s = none) :
    strings.ReplaceAll s old new = s := by
  unfold strings.ReplaceAll
  induction s with
  | nil => rfl
  | cons c cs ih =>
    simp only [strings.findSub] at h
    split at h
    · cases h
    · rename_i hp
      have hcs : strings.findSub old cs = none := by simpa using h
      simp [strings.replaceAllAux, hp, ih hcs]

theorem substituteFrom_skip (wh : WaitHost) (xs R : GoString) :
    substituteFrom wh xs.length (xs ++ R) = substituteFrom wh 0 R := by
  induction xs with
  | nil => rfl
  | cons x xs ih => simpa [substituteFrom] using ih

theorem placeholder_scheme : "{scheme}".toList = '{' :: ("scheme".toList ++ ['}']) := rfl

theorem placeholder_host : "{host}".toList = '{' :: ("host".toList ++ ['}']) := rfl

theorem placeholder_port : "{port}".toList = '{' :: ("port".toList ++ ['}']) := rfl

theorem substituteFrom_text (wh : WaitHost) (x R : GoString) (hx : '{' ∉ x) :
    substituteFrom wh 0 (x ++ R) = x ++ substituteFrom wh 0 R := by
  induction x with
  | nil => rfl
  | cons c cs ih =>
    have hc : '{' ≠ c := fun h => hx (List.mem_cons.2 (Or.inl h))
    have hcs : '{' ∉ cs := fun h => hx (List.mem_cons_of_mem _ h)
    simp [substituteFrom, placeholder_scheme, placeholder_host, placeholder_port,
      List.isPrefixOf, hc, ih hcs]

theorem substituteFrom_group (wh : WaitHost) (name R : GoString) (hn : '}' ∉ name)
    (hn' : '{' ∉ name) :
    substituteFrom wh 0 ('{' :: (name ++ '}' :: R)) =
      wh.fillGroup name ++ substituteFrom wh 0 R := by
  have hp : ∀ key : GoString, '}' ∉ key →
      List.isPrefixOf ('{' :: (key ++ ['}'])) ('{' :: (name ++ '}' :: R)) = decide (key = name) := by
    intro key hk
    simp [List.isPrefixOf, isPrefixOf_group key name R hk hn]
  have hsplit : name ++ '}' :: R = (name ++ ['}']) ++ R := by simp
  rw [substituteFrom, placeholder_scheme, placeholder_host, placeholder_port,
    hp _ (by decide), hp _ (by decide), hp _ (by decide)]
  unfold WaitHost.fillGroup
  by_cases h1 : "scheme".toList = name
  · subst h1
    have := substituteFrom_skip wh ("scheme".toList ++ ['}']) R
    simp only [decide_True, if_true]
    rw [hsplit]
    exact congrArg _ this
  · by_cases h2 : "host".toList = name
    · subst h2
      have := substituteFrom_skip wh ("host".toList ++ ['}']) R
      simp only [h1, decide_False, Bool.false_eq_true, if_false, decide_True, if_true]
      rw [hsplit]
      exact congrArg _ this
    · by_cases h3 : "port".toList = name
      · subst h3
        have := substituteFrom_skip wh ("port".toList ++ ['}']) R
        simp only [h1, h2, decide_False, Bool.false_eq_true, if_false, decide_True, if_true]
        rw [hsplit]
        exact congrArg _ this
      · have hx : '{' ∉ name ++ ['}'] := by
          simp only [List.mem_append, List.mem_singleton, not_or]
          exact ⟨hn', by decide⟩
        simp only [h1, h2, h3, decide_False, Bool.false_eq_true, if_false]
        rw [hsplit, substituteFrom_text wh _ R hx]
        simp

theorem substituteFrom_open (wh : WaitHost) (cs : GoString) (h1 : '{' ∉ cs) (h2 : '}' ∉ cs) :
    substituteFrom wh 0 ('{' :: cs) = '{' :: cs := by
  have hp : ∀ key : GoString,
      List.isPrefixOf ('{' :: (key ++ ['}'])) ('{' :: cs) = false := by
    intro key
    by_contra hcon
    simp only [Bool.not_eq_false] at hcon
    have := strings.isPrefixOf_mem _ _ hcon '}' (by simp)
    simp only [List.mem_cons] at this
    rcases this with h | h
    · revert h; decide
    · exact h2 h
  have := substituteFrom_text wh cs [] h1
  simp only [List.append_nil] at this
  rw [substituteFrom, placeholder_scheme, placeholder_host, placeholder_port, hp, hp, hp]
  simp only [Bool.false_eq_true, if_false, this]
  simp [substituteFrom]

theorem render_eq (wh : WaitHost) (m : GoString) :
    wh.render m =
      strings.replaceAllAux ('{' :: ("port".toList ++ ['}'])) (formatUint wh.Port) 0
        (strings.replaceAllAux ('{' :: ("host".toList ++ ['}'])) wh.Host 0
          (strings.replaceAllAux ('{' :: ("scheme".toList ++ ['}'])) wh.Scheme 0 m)) := rfl

theorem formatUint_no_brace (n : Nat) : '{' ∉ formatUint n :=
  not_mem_of_all _ _ _ (formatUint_digits n) (by decide)

theorem render_text (wh : WaitHost) (x R : GoString) (hx : '{' ∉ x) :
    wh.render (x ++ R) = x ++ wh.render R := by
  simp only [render_eq, strings.replaceAllAux_text _ _ _ _ _ hx]

theorem render_group (wh : WaitHost) (name R : GoString) (hn : '}' ∉ name) (hn' : '{' ∉ name)
    (hs : '{' ∉ wh.Scheme) (hh : '{' ∉ wh.Host) :
    wh.render ('{' :: (name ++ '}' :: R)) = wh.fillGroup name ++ wh.render R := by
  have hg : ∀ (key new X : GoString), '}' ∉ key →
      strings.replaceAllAux ('{' :: (key ++ ['}'])) new 0 (('{' :: (name ++ ['}'])) ++ X) =
        (if key = name then new else '{' :: (name ++ ['}'])) ++
          strings.replaceAllAux ('{' :: (key ++ ['}'])) new 0 X := by
    intro key new X hk
    have := strings.replaceAllAux_group key new name X hk hn hn'
    simpa using this
  have hsplit : '{' :: (name ++ '}' :: R) = ('{' :: (name ++ ['}'])) ++ R := by simp
  rw [hsplit]
  simp only [render_eq]
  unfold WaitHost.fillGroup
  rw [hg _ _ _ (by decide)]
  by_cases h1 : "scheme".toList = name
  · simp only [h1, if_true, strings.replaceAllAux_text _ _ _ _ _ hs]
  · simp only [h1, if_false]
    rw [hg _ _ _ (by decide)]
    by_cases h2 : "host".toList = name
    · simp only [h2, if_true, strings.replaceAllAux_text _ _ _ _ _ hh]
    · simp only [h2, if_false]
      rw [hg _ _ _ (by decide)]

theorem render_open (wh : WaitHost) (cs : GoString) (h1 : '{' ∉ cs) (h2 : '}' ∉ cs) :
    wh.render ('{' :: cs) = '{' :: cs := by
  simp only [render_eq, strings.replaceAllAux_open _ _ _ h1 h2]

/-- After a `{`, a text without nested braces either closes the group with a
`}`, the name before it free of braces, or runs to its end without any brace. -/
theorem noNestedBrace_group (cs : GoString) (h : noNestedBrace true cs = true) :
    (∃ name R, cs = name ++ '}' :: R ∧ '{' ∉ name ∧ '}' ∉ name ∧
      noNestedBrace false R = true) ∨ ('{' ∉ cs ∧ '}' ∉ cs) := by
  induction cs with
  | nil => exact Or.inr ⟨by simp, by simp⟩
  | cons c cs ih =>
    rw [noNestedBrace] at h
    by_cases h1 : c = '{'
    · simp [h1] at h
    · by_cases h2 : c = '}'
      · simp only [h1, h2, if_false, if_true] at h
        exact Or.inl ⟨[], cs, by simp [h2], by simp, by simp, h⟩
      · simp only [h1, h2, if_false] at h
        rcases ih h with ⟨name, R, rfl, hn1, hn2, hR⟩ | ⟨hc1, hc2⟩
        · refine Or.inl ⟨c :: name, R, rfl, ?_, ?_, hR⟩
          · simp only [List.mem_cons, not_or]; exact ⟨Ne.symm h1, hn1⟩
          · simp only [List.mem_cons, not_or]; exact ⟨Ne.symm h2, hn2⟩
        · refine Or.inr ⟨?_, ?_⟩
          · simp only [List.mem_cons, not_or]; exact ⟨Ne.symm h1, hc1⟩
          · simp only [List.mem_cons, not_or]; exact ⟨Ne.symm h2, hc2⟩

/-- On a template without nested braces, and values without `{`, the three
passes of `printMessage` give the substitution the specification describes. -/
theorem render_eq_substituteSpec (wh : WaitHost) (hs : '{' ∉ wh.Scheme) (hh : '{' ∉ wh.Host) :
    ∀ (n : Nat) (t : GoString), t.length ≤ n → noNestedBrace false t = true →
      wh.render t = substituteSpec wh t := by
  intro n
  induction n with
  | zero =>
    intro t ht _
    have : t = [] := List.length_eq_zero.1 (by omega)
    subst this; rfl
  | succ n ih =>
    intro t ht hw
    cases t with
    | nil => rfl
    | cons c cs =>
      rw [noNestedBrace] at hw
      by_cases hc : c = '{'
      · subst hc
        simp only [if_true] at hw
        rcases noNestedBrace_group cs hw with ⟨name, R, rfl, hn1, hn2, hR⟩ | ⟨hc1, hc2⟩
        · have hlen : R.length ≤ n := by
            simp only [List.length_cons, List.length_append] at ht
            omega
          rw [render_group wh name R hn2 hn1 hs hh, ih R hlen hR]
          unfold substituteSpec
          rw [substituteFrom_group wh name R hn2 hn1]
        · rw [render_open wh cs hc1 hc2]
          unfold substituteSpec
          rw [substituteFrom_open wh cs hc1 hc2]
      · simp only [hc, if_false] at hw
        have hlen : cs.length ≤ n := by
          simp only [List.length_cons] at ht
          omega
        have hx : '{' ∉ [c] := by simp [Ne.symm hc]
        have e1 := render_text wh [c] cs hx
        have e2 := substituteFrom_text wh [c] cs hx
        simp only [List.singleton_append] at e1 e2
        rw [e1, ih cs hlen hw]
        unfold substituteSpec
        rw [e2]

theorem render_absent (wh : WaitHost) (m : GoString)
    (h1 : strings.Contains m "{scheme}".toList = false)
    (h2 : strings.Contains m "{host}".toList = false)
    (h3 : strings.Contains m "{port}".toList = false) : wh.render m = m := by
  have key : ∀ sub : GoString, strings.Contains m sub = false → strings.findSub sub m = none := by
    intro sub h
    unfold strings.Contains at h
    cases hf : strings.findSub sub m with
    | none => rfl
    | some i => rw [hf] at h; cases h
  unfold WaitHost.render
  rw [strings.ReplaceAll_absent m _ _ (key _ h1), strings.ReplaceAll_absent m _ _ (key _ h2),
    strings.ReplaceAll_absent m _ _ (key _ h3)]

/-- C14, as the code has it: `printMessage` emits nothing when the template is
empty or the logger is nil, and otherwise emits exactly one line, the template
after three passes in a row: every `{scheme}` replaced by `Scheme`, then every
`{host}` of the result by `Host`, then every `{port}` of that result by the
decimal `Port`. A template containing none of the three placeholders is
emitted unchanged. When no `{` of the template lies inside a brace group and
neither `Scheme` nor `Host` contains a `{`, the line is the template with
every occurrence of the three placeholders replaced and all other text, any
other `{placeholder}` included, left as it is. -/
theorem printMessage_template (wh : WaitHost) (which : Template) (message : GoString) (r : Run) :
    ((wh.logger = none ∨ message = []) → wh.printMessage which message r = r) ∧
    (wh.logger ≠ none → message ≠ [] →
      wh.printMessage which message r =
        { r with trace := r.trace ++ [.print which
            (strings.ReplaceAll
              (strings.ReplaceAll (strings.ReplaceAll message "{scheme}".toList wh.Scheme)
                "{host}".toList wh.Host)
              "{port}".toList (formatUint wh.Port))] }) ∧
    (strings.Contains message "{scheme}".toList = false →
      strings.Contains message "{host}".toList = false →
      strings.Contains message "{port}".toList = false →
      wh.render message = message) ∧
    (noNestedBrace false message = true → '{' ∉ wh.Scheme → '{' ∉ wh.Host →
      wh.render message = substituteSpec wh message) := by
  refine ⟨?_, ?_, render_absent wh message, ?_⟩
  · rintro (h | h)
    · simp [WaitHost.printMessage, h]
    · simp [WaitHost.printMessage, h]
  · intro hl hm
    rw [printMessage_eq, printed_eq_render wh which message hl hm]
    rfl
  · intro hw hs hh
    exact render_eq_substituteSpec wh hs hh message.length message (le_refl _) hw

/-- C14 on the sample target and the template
`{scheme}://{host}:{port} {other}`: one line, the unknown group kept. -/
theorem printMessage_template_witness :
    (sampleTarget 0 Second).printMessage .retry "{scheme}://{host}:{port} {other}".toList Run.init
        = { Run.init with trace := [.print .retry "tcp://localhost:1123 {other}".toList] } ∧
      (sampleTarget 0 Second).render "{scheme}://{host}:{port} {other}".toList =
        substituteSpec (sampleTarget 0 Second) "{scheme}://{host}:{port} {other}".toList ∧
      (sampleTarget 0 Second).render "no placeholder {here}".toList =
        "no placeholder {here}".toList :=
  ⟨(printMessage_template (sampleTarget 0 Second) .retry
      "{scheme}://{host}:{port} {other}".toList Run.init).2.1 (by decide) (by decide),
    (printMessage_template (sampleTarget 0 Second) .retry
      "{scheme}://{host}:{port} {other}".toList Run.init).2.2.2 (by decide) (by decide)
      (by decide),
    (printMessage_template (sampleTarget 0 Second) .retry
      "no placeholder {here}".toList Run.init).2.2.1 (by decide) (by decide) (by decide)⟩

/-- C14 fails as stated: for the validated target `tcp://or:1123` and the
template `{p{host}t}`, whose only placeholder is `{host}`, `printMessage`
emits the line `1123`, whereas the template with that occurrence replaced and
the rest left as it is reads `{port}`: the pass for `{port}` replaces a
placeholder that the pass for `{host}` has put together. -/
theorem printMessage_nested_placeholder :
    (validateTarget orTarget).2 = none ∧
      orTarget.printMessage .retry "{p{host}t}".toList Run.init =
        { Run.init with trace := [.print .retry "1123".toList] } ∧
      substituteSpec orTarget "{p{host}t}".toList = "{port}".toList ∧
      "1123".toList ≠ "{port}".toList := by
  refine ⟨rfl, rfl, rfl, by decide⟩

/-! ## Exit status: claim C20 -/

theorem cmd.waitStatus_one (x : Exit) :
    cmd.waitStatus x = 1 ↔ x = .returned (some (.waitHost ⟨.TIMEOUT⟩)) := by
  constructor
  · intro h
    match x, h with
    | .returned (some (.waitHost ⟨code⟩)), h =>
      cases code <;> simp [cmd.waitStatus, WaitHostError.Code] at h ⊢
  · rintro rfl; rfl

theorem cmd.waitStatus_zero (x : Exit) : cmd.waitStatus x = 0 ↔ x = .returned none := by
  constructor
  · intro h
    match x, h with
    | .returned none, _ => rfl
    | .returned (some (.waitHost ⟨code⟩)), h =>
      cases code <;> simp [cmd.waitStatus, WaitHostError.Code] at h
  · rintro rfl; rfl

theorem cmd.waitStatus_cases (x : Exit) :
    cmd.waitStatus x = 0 ∨ cmd.waitStatus x = 1 ∨ cmd.waitStatus x = 2 := by
  match x with
  | .returned none => exact Or.inl rfl
  | .returned (some (.waitHost ⟨code⟩)) =>
    cases code <;> simp [cmd.waitStatus, WaitHostError.Code]
  | .returned (some (.urlError _)) => exact Or.inr (Or.inr rfl)
  | .returned (some (.netError _)) => exact Or.inr (Or.inr rfl)
  | .panicked => exact Or.inr (Or.inr rfl)

/-- C20, as the code has it: `Run` exits with status 2 when no address is
given or the address does not resolve, without calling `Wait`; with status 1
when, after the overrides, the target has an empty scheme, an empty host or a
zero port, again without calling `Wait`; and otherwise with the status chosen
from the way `Wait` ends: 0 for `nil`, 1 for the TIMEOUT kind and for nothing
else that `Wait` returns, 2 for every other error. So status 1 is shared by
TIMEOUT and by an incomplete target, status 2 is common to all other failures,
and status 0 is used for success only. -/
theorem cmd_exit_status (w : World) (f : cmd.Flags) (fuel : Nat) (r : Run) :
    (cmd.address f = [] → cmd.Run w f fuel r = some (2, r)) ∧
    (∀ err, cmd.address f ≠ [] → New (cmd.address f) = .error err →
      cmd.Run w f fuel r = some (2, r)) ∧
    (∀ wh0, cmd.address f ≠ [] → New (cmd.address f) = .ok wh0 →
      ((cmd.overrides f wh0).Scheme = [] ∨ (cmd.overrides f wh0).Host = [] ∨
          (cmd.overrides f wh0).Port = 0 →
        cmd.Run w f fuel r = some (1, r)) ∧
      ((cmd.overrides f wh0).Scheme ≠ [] → (cmd.overrides f wh0).Host ≠ [] →
          (cmd.overrides f wh0).Port ≠ 0 →
        ∀ x wh' r', (cmd.overrides f wh0).Wait w fuel r = some (x, wh', r') →
          cmd.Run w f fuel r = some (cmd.waitStatus x, r') ∧
          (cmd.waitStatus x = 0 ↔ x = .returned none) ∧
          (cmd.waitStatus x = 1 ↔ x = .returned (some (.waitHost ⟨.TIMEOUT⟩))) ∧
          (x ≠ .returned none → x ≠ .returned (some (.waitHost ⟨.TIMEOUT⟩)) →
            cmd.waitStatus x = 2))) := by
  refine ⟨?_, ?_, ?_⟩
  · intro h
    simp [cmd.Run, h]
  · intro err hne h
    have hlen : (cmd.address f).length > 0 := List.length_pos.2 hne
    simp [cmd.Run, hlen, h]
  · intro wh0 hne h
    have hlen : (cmd.address f).length > 0 := List.length_pos.2 hne
    constructor
    · intro hinc
      have hinc' : (cmd.overrides f wh0).Scheme.length = 0 ∨
          (cmd.overrides f wh0).Host.length = 0 ∨ (cmd.overrides f wh0).Port = 0 := by
        simpa using hinc
      simp only [cmd.Run, hlen, h, if_true, hinc']
    · intro h1 h2 h3 x wh' r' hw
      have hcomp : ¬ ((cmd.overrides f wh0).Scheme.length = 0 ∨
          (cmd.overrides f wh0).Host.length = 0 ∨ (cmd.overrides f wh0).Port = 0) := by
        simp [h1, h2, h3]
      refine ⟨?_, cmd.waitStatus_zero x, cmd.waitStatus_one x, ?_⟩
      · simp only [cmd.Run, hlen, h, if_true, hcomp, if_false, hw]
      · intro hx0 hx1
        rcases cmd.waitStatus_cases x with h0 | h1' | h2'
        · exact absurd ((cmd.waitStatus_zero x).1 h0) hx0
        · exact absurd ((cmd.waitStatus_one x).1 h1') hx1
        · exact h2'

/-- C20 on `wait-host :1123 -t 1` with every dial refused: `Wait` ends with
TIMEOUT and the status is 1. -/
theorem cmd_exit_status_witness :
    cmd.Run worldRefusing { args := [":1123".toList], timeout := 1 } 3 Run.init =
      some (cmd.waitStatus (.returned (some (.waitHost ⟨.TIMEOUT⟩))),
        { clock := 1000000000, reads := 5, dials := 1,
          trace := [.now 0, .now 0, .now 0, .dial "tcp".toList "localhost:1123".toList, .now 0,
            .sleep 1000000000,
            .print .retry "Waiting for connection on localhost:1123".toList,
            .now 1000000000] }) :=
  (((cmd_exit_status worldRefusing { args := [":1123".toList], timeout := 1 } 3 Run.init).2.2
      (resolvedTarget "tcp".toList "localhost".toList 1123) (by decide) rfl).2
      (by decide) (by decide) (by decide) _ _ _ rfl).1

/-- C20 fails as stated: `wait-host goland.org`, an address without a port,
exits with status 1 without calling `Wait`, and status 1 is also the status of
`wait-host :1123 -t 1` when `Wait` ends with TIMEOUT: the status of TIMEOUT is
used for another failure, the zero port, which does not get the status 2 of
the other failures. -/
theorem cmd_zero_port_exits_like_timeout :
    (cmd.overrides { args := ["goland.org".toList] }
        (resolvedTarget "tcp".toList "goland.org".toList 0)).Port = 0 ∧
      New "goland.org".toList = .ok (resolvedTarget "tcp".toList "goland.org".toList 0) ∧
      cmd.Run worldRefusing { args := ["goland.org".toList] } 3 Run.init = some (1, Run.init) ∧
      (cmd.Run worldRefusing { args := [":1123".toList], timeout := 1 } 3 Run.init).map (·.1) =
        some 1 ∧
      cmd.waitStatus (.returned (some (.waitHost ⟨.TIMEOUT⟩))) = 1 ∧
      cmd.waitStatus (.returned (some (.waitHost ⟨.BAD_PORT⟩))) = 2 := by
  refine ⟨rfl, rfl, rfl, rfl, rfl, rfl⟩
